import Mathlib

/-!
# Verification of the jetton distribution engine (src/jetton_sender.py)

Shallow embedding of the control flow of `jetton_sender.py`.  The external
gateway (TonCenterClient / TonTools) is modelled as an oracle (`Gateway`)
that answers each network call; observable effects (submitted transfers,
sleeps, retry waits, log lines) are recorded in an event trace.  The Python
`float` fee is never used arithmetically by the program — it is only passed
through to the gateway — so it is modelled as an opaque `Int` value.
The tenacity `retry` decorator is modelled by `retryRun`: `reraise = true`
re-raises the last error on exhaustion (used by `get_jetton`/`get_wallet`),
`reraise = false` (tenacity's default, used by `send_jetton`) raises a
`RetryError` wrapping the last error, modelled by `Err.retryExhausted`.
-/

set_option maxHeartbeats 1000000
set_option linter.unusedVariables false

namespace JettonSender

/-- Exceptions visible to the program.  `tonCenter` is `TonCenterClientError`
(the transient gateway error), `getMethod` is `GetMethodError`,
`retryExhausted e` is tenacity's `RetryError` wrapping a last error `e`,
and `other n` stands for any further unclassified exception. -/
inductive Err where
  | tonCenter : Err
  | getMethod : Err
  | retryExhausted : Err → Err
  | other : Nat → Err
deriving DecidableEq, Repr

/-- `isinstance(e, TonCenterClientError)` — the retry classifier used by all
three `retry_if_exception_type(TonCenterClientError)` decorators. -/
def isTonCenterClientError : Err → Bool
  | .tonCenter => true
  | _ => false

/-- Observable effects of a run, in order of occurrence.
`submitTransfer i d jm a f` records a `wallet.transfer_jetton` call for the
destination at list position `i` with destination address `d`, jetton master
address `jm`, amount `a` and fee `f`. -/
inductive Event where
  | submitTransfer : Nat → String → String → Nat → Int → Event
  | interSendSleep : Nat → Event
  | retryWait : Nat → Event
  | logAttempt : Nat → Event
  | logInfoSent : String → Nat → Event
  | logErrorGetMethod : String → Event
  | logErrorCannotSend : String → Event
  | logInfoJetton : Event
  | logInfoState : String → Event
  | checkState : String → Event
  | logErrorNotActive : Event
  | logExceptionResolve : Event
deriving DecidableEq, Repr

/-- `class WalletState(str, Enum)` from the source. -/
inductive WalletState where
  | active
  | inactive
  | notinit
deriving DecidableEq, Repr

/-- The string value of each `WalletState` member (it is a `str` enum). -/
def WalletState.str : WalletState → String
  | .active => "active"
  | .inactive => "inactive"
  | .notinit => "notinit"

/-- The resolved jetton; only its master address is consumed by the engine. -/
structure Jetton where
  address : String
deriving DecidableEq, Repr

/-- The derived source wallet; only its address is consumed by the engine. -/
structure Wallet where
  address : String
deriving DecidableEq, Repr

/-- Run configuration: CLI arguments (`--jetton-address`,
`--jetton-send-amount`, `--jetton-send-fee`, `--jetton-send-sleep`,
`--source-wallet-version`) and the retry environment variables
(`RETRIEVE_RETRY_ATTEMPTS/WAIT`, `SEND_RETRY_ATTEMPTS/WAIT`). -/
structure Config where
  jettonAddress : String
  jettonSendAmount : Nat
  jettonSendFee : Int
  jettonSendSleep : Nat
  sourceWalletVersion : String
  retrieveRetryAttempts : Nat
  retrieveRetryWait : Nat
  sendRetryAttempts : Nat
  sendRetryWait : Nat

/-- The external gateway as an oracle.  Each network call is answered as a
function of its call site: `jettonUpdate m` answers the `m`-th attempt of
`jetton.update()`, `walletGetState m` the `m`-th attempt of
`wallet.get_state()`, and `transferJetton i m` the `m`-th attempt of
`wallet.transfer_jetton` for the destination at list position `i`.
`mkWallet` is the deterministic wallet derivation from mnemonics and
version tag. -/
structure Gateway where
  jettonUpdate : Nat → Except Err Unit
  walletGetState : Nat → Except Err String
  mkWallet : List String → String → Wallet
  transferJetton : Nat → Nat → Except Err Nat

/-- Result of a whole run: an explicit exit code (`exit(n)` or normal
completion, which is exit code 0), or an exception escaping `main`
(the process then terminates abnormally with that error). -/
inductive RunResult where
  | exitCode : Nat → RunResult
  | uncaught : Err → RunResult
deriving DecidableEq, Repr

/-- Core of the tenacity retry loop.  `attempt` is the 0-based index of the
current attempt, `f` the number of retries still allowed after it
(`f = attempts - 1` initially, so `stop_after_attempt attempts` holds).
After a failed attempt whose error the classifier `p` accepts, the `after`
hook logs the attempt; if f remains, the loop sleeps `w` and retries,
otherwise it raises the last error (`r = true`, tenacity `reraise=True`) or
a `RetryError` wrapping it (`r = false`).  An error rejected by `p`
propagates immediately, as-is. -/
def retryAux (op : Nat → List Event × Except Err α) (p : Err → Bool)
    (w : Nat) (r : Bool) : Nat → Nat → List Event × Except Err α
  | attempt, 0 =>
    match op attempt with
    | (tr, .ok a) => (tr, .ok a)
    | (tr, .error e) =>
      if p e then
        (tr ++ [.logAttempt attempt], .error (if r then e else .retryExhausted e))
      else (tr, .error e)
  | attempt, f + 1 =>
    match op attempt with
    | (tr, .ok a) => (tr, .ok a)
    | (tr, .error e) =>
      if p e then
        let rest := retryAux op p w r (attempt + 1) f
        (tr ++ .logAttempt attempt :: .retryWait w :: rest.1, rest.2)
      else (tr, .error e)

/-- The tenacity `retry` decorator:
`stop = stop_after_attempt attempts`, `wait = wait_fixed w`,
`retry = retry_if_exception_type` via the classifier `p`,
`reraise = r`. -/
def retryRun (op : Nat → List Event × Except Err α) (p : Err → Bool)
    (w : Nat) (r : Bool) (attempts : Nat) : List Event × Except Err α :=
  retryAux op p w r 0 (attempts - 1)

/-- One attempt of the body of `get_jetton`: construct the `Jetton`, call
`jetton.update()` over the network, log it and return it. -/
def getJettonAttempt (g : Gateway) (jetton_address : String) (m : Nat) :
    List Event × Except Err Jetton :=
  match g.jettonUpdate m with
  | .ok _ => ([.logInfoJetton], .ok ⟨jetton_address⟩)
  | .error e => ([], .error e)

/-- `get_jetton`, with its decorator: retries `TonCenterClientError` up to
`RETRIEVE_RETRY_ATTEMPTS` times with `RETRIEVE_RETRY_WAIT`, `reraise=True`. -/
def get_jetton (g : Gateway) (c : Config) (jetton_address : String) :
    List Event × Except Err Jetton :=
  retryRun (getJettonAttempt g jetton_address) isTonCenterClientError
    c.retrieveRetryWait true c.retrieveRetryAttempts

/-- One attempt of the body of `get_wallet`: construct the wallet from the
mnemonics and version, call `wallet.get_state()`, log the state, return
both. -/
def getWalletAttempt (g : Gateway) (mnemonics : List String)
    (wallet_version : String) (m : Nat) :
    List Event × Except Err (Wallet × String) :=
  match g.walletGetState m with
  | .ok s => ([.logInfoState s], .ok (g.mkWallet mnemonics wallet_version, s))
  | .error e => ([], .error e)

/-- `get_wallet`, with its decorator: identical retry configuration to
`get_jetton`, `reraise=True`. -/
def get_wallet (g : Gateway) (c : Config) (mnemonics : List String)
    (wallet_version : String) : List Event × Except Err (Wallet × String) :=
  retryRun (getWalletAttempt g mnemonics wallet_version) isTonCenterClientError
    c.retrieveRetryWait true c.retrieveRetryAttempts

/-- One attempt of the body of `send_jetton` for the destination at list
position `i`: call `wallet.transfer_jetton`; on success log and sleep
`sleep_seconds`; on `GetMethodError` log the error and return normally; on
any other exception log it and re-raise. -/
def sendAttempt (g : Gateway) (i : Nat) (source_wallet : Wallet)
    (destination_wallet : String) (jetton : Jetton) (amount : Nat)
    (fee : Int) (sleep_seconds : Nat) (m : Nat) :
    List Event × Except Err Unit :=
  match g.transferJetton i m with
  | .ok code =>
    ([.submitTransfer i destination_wallet jetton.address amount fee,
      .logInfoSent destination_wallet code,
      .interSendSleep sleep_seconds], .ok ())
  | .error e =>
    if e = .getMethod then
      ([.submitTransfer i destination_wallet jetton.address amount fee,
        .logErrorGetMethod destination_wallet], .ok ())
    else
      ([.submitTransfer i destination_wallet jetton.address amount fee,
        .logErrorCannotSend destination_wallet], .error e)

/-- `send_jetton`, with its decorator: retries `TonCenterClientError` up to
`SEND_RETRY_ATTEMPTS` times with `SEND_RETRY_WAIT`; note the absence of
`reraise=True` in the source, so exhaustion raises tenacity's `RetryError`. -/
def send_jetton (g : Gateway) (c : Config) (i : Nat) (source_wallet : Wallet)
    (destination_wallet : String) (jetton : Jetton) (amount : Nat)
    (fee : Int) (sleep_seconds : Nat) : List Event × Except Err Unit :=
  retryRun (sendAttempt g i source_wallet destination_wallet jetton amount fee
    sleep_seconds) isTonCenterClientError c.sendRetryWait false
    c.sendRetryAttempts

/-- The `for destination_wallet in destination_wallets` loop of `main`,
starting at list position `i`.  The loop body has no exception handler: any
error escaping `send_jetton` stops the loop and propagates. -/
def sendLoop (g : Gateway) (c : Config) (source_wallet : Wallet)
    (jetton : Jetton) : Nat → List String → List Event × Except Err Unit
  | _, [] => ([], .ok ())
  | i, d :: rest =>
    match send_jetton g c i source_wallet d jetton c.jettonSendAmount
        c.jettonSendFee c.jettonSendSleep with
    | (tr, .ok _) =>
      let r := sendLoop g c source_wallet jetton (i + 1) rest
      (tr ++ r.1, r.2)
    | (tr, .error e) => (tr, .error e)

/-- `main`, after `setup()` (argument parsing and file reading are out of
scope; the mnemonics and destination list are parameters here):
resolve the jetton and the source wallet inside a `try` that maps
`TonCenterClientError` to `exit(3)`, check the wallet state against
`WalletState.active` (`exit(4)` when different), then run the send loop;
normal completion is exit code 0, and any error escaping the loop escapes
`main`. -/
def main (g : Gateway) (c : Config) (mnemonics : List String)
    (destination_wallets : List String) : List Event × RunResult :=
  match get_jetton g c c.jettonAddress with
  | (t1, .error e) =>
    if isTonCenterClientError e then (t1 ++ [.logExceptionResolve], .exitCode 3)
    else (t1, .uncaught e)
  | (t1, .ok jetton) =>
    match get_wallet g c mnemonics c.sourceWalletVersion with
    | (t2, .error e) =>
      if isTonCenterClientError e then
        (t1 ++ t2 ++ [.logExceptionResolve], .exitCode 3)
      else (t1 ++ t2, .uncaught e)
    | (t2, .ok (source_wallet, state)) =>
      if state ≠ WalletState.active.str then
        (t1 ++ t2 ++ [.checkState state, .logErrorNotActive], .exitCode 4)
      else
        match sendLoop g c source_wallet jetton 0 destination_wallets with
        | (t3, .ok _) => (t1 ++ t2 ++ .checkState state :: t3, .exitCode 0)
        | (t3, .error e) => (t1 ++ t2 ++ .checkState state :: t3, .uncaught e)

/-! ## Trace observations -/

/-- Is this event a `transfer_jetton` submission? -/
def isSubmit : Event → Bool
  | .submitTransfer _ _ _ _ _ => true
  | _ => false

/-- Is this event a submission for the destination at position `x`? -/
def isSubmitAt (x : Nat) : Event → Bool
  | .submitTransfer y _ _ _ _ => x = y
  | _ => false

/-- Is this event the inter-send rate-limiting sleep? -/
def isInterSleep : Event → Bool
  | .interSendSleep _ => true
  | _ => false

/-- Is this event the success log line of a send? -/
def isSentLog : Event → Bool
  | .logInfoSent _ _ => true
  | _ => false

/-- Is this event a retry wait of the retry wrapper? -/
def isRetryWait : Event → Bool
  | .retryWait _ => true
  | _ => false

/-- Is this event the wallet-state precondition check? -/
def isCheck : Event → Bool
  | .checkState _ => true
  | _ => false

/-- Number of `transfer_jetton` submissions in a trace. -/
def countSubmits (tr : List Event) : Nat := tr.countP isSubmit

/-- Number of submissions for position `x` in a trace. -/
def countSubmitsAt (x : Nat) (tr : List Event) : Nat := tr.countP (isSubmitAt x)

/-- Number of inter-send sleeps in a trace. -/
def countInterSleeps (tr : List Event) : Nat := tr.countP isInterSleep

/-- Number of send-success log lines in a trace. -/
def countSentLogs (tr : List Event) : Nat := tr.countP isSentLog

/-- Number of retry waits in a trace. -/
def countRetryWaits (tr : List Event) : Nat := tr.countP isRetryWait

/-- Number of wallet-state checks in a trace. -/
def countChecks (tr : List Event) : Nat := tr.countP isCheck

/-- The destination positions of the submissions of a trace, in trace
order. -/
def submitIdxs (tr : List Event) : List Nat :=
  tr.filterMap fun ev =>
    match ev with
    | .submitTransfer y _ _ _ _ => some y
    | _ => none

/-! ## Generic facts about the retry wrapper -/

variable {α : Type} {op : Nat → List Event × Except Err α} {p : Err → Bool}
variable {w : Nat} {r : Bool}

lemma retryAux_of_ok {attempt f : Nat} {tr : List Event} {a : α}
    (h : op attempt = (tr, .ok a)) :
    retryAux op p w r attempt f = (tr, .ok a) := by
  cases f <;> simp [retryAux, h]

lemma retryAux_of_err_nonretry {attempt f : Nat} {tr : List Event} {e : Err}
    (h : op attempt = (tr, .error e)) (hp : p e = false) :
    retryAux op p w r attempt f = (tr, .error e) := by
  cases f <;> simp [retryAux, h, hp]

lemma retryAux_of_err_last {attempt : Nat} {tr : List Event} {e : Err}
    (h : op attempt = (tr, .error e)) (hp : p e = true) :
    retryAux op p w r attempt 0 =
      (tr ++ [.logAttempt attempt],
       .error (if r then e else .retryExhausted e)) := by
  simp [retryAux, h, hp]

lemma retryAux_of_err_step {attempt f : Nat} {tr : List Event} {e : Err}
    (h : op attempt = (tr, .error e)) (hp : p e = true) :
    retryAux op p w r attempt (f + 1) =
      (tr ++ .logAttempt attempt :: .retryWait w ::
        (retryAux op p w r (attempt + 1) f).1,
       (retryAux op p w r (attempt + 1) f).2) := by
  simp [retryAux, h, hp]

/-- If every attempt fails with the same retryable error, the wrapper
exhausts its attempts and terminates with the error dictated by `r`. -/
lemma retryAux_snd_const_fail {e : Err}
    (h : ∀ m, (op m).2 = .error e) (hp : p e = true) :
    ∀ f attempt,
      (retryAux op p w r attempt f).2 =
        .error (if r then e else .retryExhausted e) := by
  intro f
  induction f with
  | zero =>
    intro attempt
    rcases hop : op attempt with ⟨tr, res⟩
    have hres : res = .error e := by
      have h2 := h attempt; rw [hop] at h2; exact h2
    subst hres
    rw [retryAux_of_err_last hop hp]
  | succ f ih =>
    intro attempt
    rcases hop : op attempt with ⟨tr, res⟩
    have hres : res = .error e := by
      have h2 := h attempt; rw [hop] at h2; exact h2
    subst hres
    rw [retryAux_of_err_step hop hp]
    exact ih (attempt + 1)

/-- Every event of a retry run comes from some attempt of the wrapped
operation or is glue added by the wrapper (attempt log / retry wait). -/
lemma retryAux_mem :
    ∀ f attempt ev, ev ∈ (retryAux op p w r attempt f).1 →
      (∃ m, ev ∈ (op m).1) ∨ (∃ n, ev = Event.logAttempt n) ∨
        ev = Event.retryWait w := by
  intro f
  induction f with
  | zero =>
    intro attempt ev hev
    rcases hop : op attempt with ⟨tr, res⟩
    cases res with
    | ok a =>
      rw [retryAux_of_ok hop] at hev
      exact .inl ⟨attempt, by rw [hop]; exact hev⟩
    | error e =>
      by_cases hp : p e = true
      · rw [retryAux_of_err_last hop hp] at hev
        rcases List.mem_append.1 hev with h1 | h2
        · exact .inl ⟨attempt, by rw [hop]; exact h1⟩
        · simp only [List.mem_singleton] at h2
          exact .inr (.inl ⟨attempt, h2⟩)
      · rw [retryAux_of_err_nonretry hop (by simpa using hp)] at hev
        exact .inl ⟨attempt, by rw [hop]; exact hev⟩
  | succ f ih =>
    intro attempt ev hev
    rcases hop : op attempt with ⟨tr, res⟩
    cases res with
    | ok a =>
      rw [retryAux_of_ok hop] at hev
      exact .inl ⟨attempt, by rw [hop]; exact hev⟩
    | error e =>
      by_cases hp : p e = true
      · rw [retryAux_of_err_step hop hp] at hev
        rcases List.mem_append.1 hev with h1 | h2
        · exact .inl ⟨attempt, by rw [hop]; exact h1⟩
        · rcases List.mem_cons.1 h2 with h3 | h4
          · exact .inr (.inl ⟨attempt, h3⟩)
          · rcases List.mem_cons.1 h4 with h5 | h6
            · exact .inr (.inr h5)
            · exact ih (attempt + 1) ev h6
      · rw [retryAux_of_err_nonretry hop (by simpa using hp)] at hev
        exact .inl ⟨attempt, by rw [hop]; exact hev⟩

/-- Events of the first executed attempt appear in the retry run's trace. -/
lemma retryAux_mem_first {attempt f : Nat} {ev : Event}
    (hev : ev ∈ (op attempt).1) :
    ev ∈ (retryAux op p w r attempt f).1 := by
  rcases hop : op attempt with ⟨tr, res⟩
  rw [hop] at hev
  cases res with
  | ok a => rw [retryAux_of_ok hop]; exact hev
  | error e =>
    by_cases hp : p e = true
    · cases f with
      | zero =>
        rw [retryAux_of_err_last hop hp]
        exact List.mem_append.2 (.inl hev)
      | succ f =>
        rw [retryAux_of_err_step hop hp]
        exact List.mem_append.2 (.inl hev)
    · rw [retryAux_of_err_nonretry hop (by simpa using hp)]; exact hev

/-- A predicate that holds for no attempt-trace event and no glue event
counts zero over the whole retry run. -/
lemma retryAux_countP_zero (q : Event → Bool)
    (hq1 : ∀ n, q (.logAttempt n) = false) (hq2 : q (.retryWait w) = false)
    (hop : ∀ m, ∀ ev ∈ (op m).1, q ev = false) {f attempt : Nat} :
    (retryAux op p w r attempt f).1.countP q = 0 := by
  refine List.countP_eq_zero.2 ?_
  intro ev hev
  rcases retryAux_mem (p := p) (w := w) (r := r) f attempt ev hev with
    ⟨m, hm⟩ | ⟨n, hn⟩ | hw
  · simp [hop m ev hm]
  · subst hn; simp [hq1]
  · subst hw; simp [hq2]

/-- Two predicates that vanish on glue events and agree in count on every
attempt trace agree in count on the whole retry run. -/
lemma retryAux_countP_eq (q1 q2 : Event → Bool)
    (hg1 : ∀ n, q1 (.logAttempt n) = false) (hg2 : q1 (.retryWait w) = false)
    (hg3 : ∀ n, q2 (.logAttempt n) = false) (hg4 : q2 (.retryWait w) = false)
    (hop : ∀ m, (op m).1.countP q1 = (op m).1.countP q2) :
    ∀ f attempt,
      (retryAux op p w r attempt f).1.countP q1 =
        (retryAux op p w r attempt f).1.countP q2 := by
  intro f
  induction f with
  | zero =>
    intro attempt
    rcases hop' : op attempt with ⟨tr, res⟩
    have htr : tr.countP q1 = tr.countP q2 := by
      have h2 := hop attempt; rw [hop'] at h2; exact h2
    cases res with
    | ok a => rw [retryAux_of_ok hop']; exact htr
    | error e =>
      by_cases hp : p e = true
      · rw [retryAux_of_err_last hop' hp]
        simp [List.countP_append, List.countP_cons, hg1, hg3, htr]
      · rw [retryAux_of_err_nonretry hop' (by simpa using hp)]; exact htr
  | succ f ih =>
    intro attempt
    rcases hop' : op attempt with ⟨tr, res⟩
    have htr : tr.countP q1 = tr.countP q2 := by
      have h2 := hop attempt; rw [hop'] at h2; exact h2
    cases res with
    | ok a => rw [retryAux_of_ok hop']; exact htr
    | error e =>
      by_cases hp : p e = true
      · rw [retryAux_of_err_step hop' hp]
        simp [List.countP_append, List.countP_cons, hg1, hg2, hg3, hg4, htr,
          ih (attempt + 1)]
      · rw [retryAux_of_err_nonretry hop' (by simpa using hp)]; exact htr

/-! ## Facts about one send attempt -/

lemma isTonCenterClientError_eq_false {e : Err} (he : e ≠ .tonCenter) :
    isTonCenterClientError e = false := by
  cases e <;> simp_all [isTonCenterClientError]

variable {g : Gateway} {i : Nat} {u : Wallet} {d : String} {j : Jetton}
variable {A : Nat} {F : Int} {S : Nat}

lemma sendAttempt_of_ok {m code : Nat} (h : g.transferJetton i m = .ok code) :
    sendAttempt g i u d j A F S m =
      ([.submitTransfer i d j.address A F, .logInfoSent d code,
        .interSendSleep S], .ok ()) := by
  simp [sendAttempt, h]

lemma sendAttempt_of_getMethod {m : Nat}
    (h : g.transferJetton i m = .error .getMethod) :
    sendAttempt g i u d j A F S m =
      ([.submitTransfer i d j.address A F, .logErrorGetMethod d], .ok ()) := by
  simp [sendAttempt, h]

lemma sendAttempt_of_err {m : Nat} {e : Err}
    (h : g.transferJetton i m = .error e) (he : e ≠ .getMethod) :
    sendAttempt g i u d j A F S m =
      ([.submitTransfer i d j.address A F, .logErrorCannotSend d],
       .error e) := by
  simp [sendAttempt, h, he]

lemma sendAttempt_mem {m : Nat} {ev : Event}
    (hev : ev ∈ (sendAttempt g i u d j A F S m).1) :
    ev = .submitTransfer i d j.address A F ∨
      (∃ c, ev = .logInfoSent d c) ∨ ev = .interSendSleep S ∨
      ev = .logErrorGetMethod d ∨ ev = .logErrorCannotSend d := by
  rcases ht : g.transferJetton i m with e | code
  · by_cases he : e = Err.getMethod
    · subst he
      rw [sendAttempt_of_getMethod ht] at hev
      simp only [List.mem_cons, List.not_mem_nil, or_false] at hev
      rcases hev with h | h
      · exact .inl h
      · exact .inr (.inr (.inr (.inl h)))
    · rw [sendAttempt_of_err ht he] at hev
      simp only [List.mem_cons, List.not_mem_nil, or_false] at hev
      rcases hev with h | h
      · exact .inl h
      · exact .inr (.inr (.inr (.inr h)))
  · rw [sendAttempt_of_ok ht] at hev
    simp only [List.mem_cons, List.not_mem_nil, or_false] at hev
    rcases hev with h | h | h
    · exact .inl h
    · exact .inr (.inl ⟨code, h⟩)
    · exact .inr (.inr (.inl h))

/-- Every send attempt, whatever its outcome, issues a `transfer_jetton`
submission carrying the run's constants. -/
lemma sendAttempt_submit_mem (m : Nat) :
    Event.submitTransfer i d j.address A F ∈
      (sendAttempt g i u d j A F S m).1 := by
  rcases ht : g.transferJetton i m with e | code
  · by_cases he : e = Err.getMethod
    · subst he; rw [sendAttempt_of_getMethod ht]; simp
    · rw [sendAttempt_of_err ht he]; simp
  · rw [sendAttempt_of_ok ht]; simp

/-- In each attempt trace the inter-send sleep count equals the
send-success log count (one on success, zero on any failure path). -/
lemma sendAttempt_balanced (m : Nat) :
    (sendAttempt g i u d j A F S m).1.countP isInterSleep =
      (sendAttempt g i u d j A F S m).1.countP isSentLog := by
  rcases ht : g.transferJetton i m with e | code
  · by_cases he : e = Err.getMethod
    · subst he; rw [sendAttempt_of_getMethod ht]
      simp [List.countP_cons, isInterSleep, isSentLog]
    · rw [sendAttempt_of_err ht he]
      simp [List.countP_cons, isInterSleep, isSentLog]
  · rw [sendAttempt_of_ok ht]
    simp [List.countP_cons, isInterSleep, isSentLog]

/-! ## Facts about `send_jetton` -/

/-- If the first `k` attempts for position `i` all fail with the transient
gateway error, the retry run behaves like the run of the remaining
attempts, with `k` extra submissions and retry waits in front and no sleep
added. -/
lemma send_retryAux_shift {v : Nat} :
    ∀ (k : Nat) (a f : Nat), k ≤ f →
      (∀ m, m < k → g.transferJetton i (a + m) = .error .tonCenter) →
      (retryAux (sendAttempt g i u d j A F S) isTonCenterClientError v
          false a f).2 =
        (retryAux (sendAttempt g i u d j A F S) isTonCenterClientError v
          false (a + k) (f - k)).2 ∧
      (retryAux (sendAttempt g i u d j A F S) isTonCenterClientError v
          false a f).1.countP isSubmit =
        k + (retryAux (sendAttempt g i u d j A F S) isTonCenterClientError v
          false (a + k) (f - k)).1.countP isSubmit ∧
      (retryAux (sendAttempt g i u d j A F S) isTonCenterClientError v
          false a f).1.countP isRetryWait =
        k + (retryAux (sendAttempt g i u d j A F S) isTonCenterClientError v
          false (a + k) (f - k)).1.countP isRetryWait ∧
      (retryAux (sendAttempt g i u d j A F S) isTonCenterClientError v
          false a f).1.countP isInterSleep =
        (retryAux (sendAttempt g i u d j A F S) isTonCenterClientError v
          false (a + k) (f - k)).1.countP isInterSleep ∧
      (∀ ev, ev ∈ (retryAux (sendAttempt g i u d j A F S)
          isTonCenterClientError v false (a + k) (f - k)).1 →
        ev ∈ (retryAux (sendAttempt g i u d j A F S) isTonCenterClientError
          v false a f).1) := by
  intro k
  induction k with
  | zero =>
    intro a f _ _
    refine ⟨?_, ?_, ?_, ?_, ?_⟩ <;> simp
  | succ k ih =>
    intro a f hkf hpre
    obtain ⟨f', rfl⟩ : ∃ f', f = f' + 1 := ⟨f - 1, by omega⟩
    have h0 : g.transferJetton i a = .error .tonCenter := by
      have := hpre 0 (Nat.succ_pos k); simpa using this
    have hop : sendAttempt g i u d j A F S a =
        ([.submitTransfer i d j.address A F, .logErrorCannotSend d],
         .error .tonCenter) :=
      sendAttempt_of_err h0 (by simp)
    have hstep := retryAux_of_err_step (p := isTonCenterClientError)
      (w := v) (r := false) (f := f') hop (by simp [isTonCenterClientError])
    have hshift : ∀ m, m < k →
        g.transferJetton i (a + 1 + m) = .error .tonCenter := by
      intro m hm
      have heq : a + 1 + m = a + (m + 1) := by omega
      rw [heq]
      exact hpre (m + 1) (by omega)
    have hidx : a + 1 + k = a + (k + 1) := by omega
    have hfuel : f' - k = f' + 1 - (k + 1) := by omega
    obtain ⟨ih1, ih2, ih3, ih4, ih5⟩ := ih (a + 1) f' (by omega) hshift
    rw [hidx, hfuel] at ih1 ih2 ih3 ih4 ih5
    refine ⟨?_, ?_, ?_, ?_, ?_⟩
    · rw [hstep]; exact ih1
    · rw [hstep]
      simp only [List.countP_append, List.countP_cons, List.countP_nil]
      simp only [isSubmit]
      simp only [ih2]
      simp
      omega
    · rw [hstep]
      simp only [List.countP_append, List.countP_cons, List.countP_nil]
      simp only [isRetryWait]
      simp only [ih3]
      simp
      omega
    · rw [hstep]
      simp only [List.countP_append, List.countP_cons, List.countP_nil]
      simp only [isInterSleep]
      simp only [ih4]
      simp
    · intro ev hev
      rw [hstep]
      refine List.mem_append.2 (.inr ?_)
      exact List.mem_cons.2 (.inr (List.mem_cons.2 (.inr (ih5 ev hev))))

/-- Exhaustion of the send retries: with every attempt for position `i`
failing transiently, `send_jetton` terminates with a `RetryError` wrapping
the transient error (no `reraise=True` on its decorator), having logged the
failure, and with no inter-send sleep. -/
lemma send_jetton_exhaust
    {c : Config} (h : ∀ m, g.transferJetton i m = .error .tonCenter) :
    (send_jetton g c i u d j A F S).2 =
        .error (.retryExhausted .tonCenter) ∧
      Event.logErrorCannotSend d ∈ (send_jetton g c i u d j A F S).1 ∧
      (send_jetton g c i u d j A F S).1.countP isInterSleep = 0 := by
  have hop : ∀ m, (sendAttempt g i u d j A F S m).2 = .error .tonCenter := by
    intro m
    rw [sendAttempt_of_err (h m) (by simp)]
  refine ⟨?_, ?_, ?_⟩
  · have := retryAux_snd_const_fail (p := isTonCenterClientError)
      (w := c.sendRetryWait) (r := false)
      (e := Err.tonCenter) hop rfl (c.sendRetryAttempts - 1) 0
    simpa [send_jetton, retryRun] using this
  · show Event.logErrorCannotSend d ∈
      (retryAux (sendAttempt g i u d j A F S) isTonCenterClientError
        c.sendRetryWait false 0 (c.sendRetryAttempts - 1)).1
    refine retryAux_mem_first ?_
    rw [sendAttempt_of_err (h 0) (by simp)]; simp
  · show (retryAux (sendAttempt g i u d j A F S) isTonCenterClientError
        c.sendRetryWait false 0 (c.sendRetryAttempts - 1)).1.countP
        isInterSleep = 0
    refine retryAux_countP_zero isInterSleep (by simp [isInterSleep])
      (by simp [isInterSleep]) ?_
    intro m ev hev
    rw [sendAttempt_of_err (h m) (by simp)] at hev
    simp only [List.mem_cons, List.not_mem_nil, or_false] at hev
    rcases hev with h1 | h2
    · simp [h1, isInterSleep]
    · simp [h2, isInterSleep]

/-- Method rejection on attempt `k` (after `k` transient failures): caught
inside the send body, so the retry wrapper records the attempt as a success
and `send_jetton` returns normally; the rejection is logged, the total
submissions are `k + 1`, the retry waits are `k`, and no inter-send sleep
occurs. -/
lemma send_jetton_getMethod {c : Config} {k : Nat}
    (hk : k < c.sendRetryAttempts)
    (hpre : ∀ m, m < k → g.transferJetton i m = .error .tonCenter)
    (hke : g.transferJetton i k = .error .getMethod) :
    (send_jetton g c i u d j A F S).2 = .ok () ∧
      Event.logErrorGetMethod d ∈ (send_jetton g c i u d j A F S).1 ∧
      (send_jetton g c i u d j A F S).1.countP isSubmit = k + 1 ∧
      (send_jetton g c i u d j A F S).1.countP isRetryWait = k ∧
      (send_jetton g c i u d j A F S).1.countP isInterSleep = 0 := by
  have hpre0 : ∀ m, m < k → g.transferJetton i (0 + m) = .error .tonCenter := by
    intro m hm; simpa using hpre m hm
  obtain ⟨h1, h2, h3, h4, h5⟩ :=
    send_retryAux_shift (g := g) (i := i) (u := u) (d := d) (j := j)
      (A := A) (F := F) (S := S) (v := c.sendRetryWait) k 0
      (c.sendRetryAttempts - 1) (by omega) hpre0
  have hop : sendAttempt g i u d j A F S (0 + k) =
      ([.submitTransfer i d j.address A F, .logErrorGetMethod d], .ok ()) := by
    rw [Nat.zero_add]; exact sendAttempt_of_getMethod hke
  have htail := retryAux_of_ok (p := isTonCenterClientError)
    (w := c.sendRetryWait) (r := false)
    (f := c.sendRetryAttempts - 1 - k) hop
  refine ⟨?_, ?_, ?_, ?_, ?_⟩
  · show (retryAux (sendAttempt g i u d j A F S) isTonCenterClientError
        c.sendRetryWait false 0 (c.sendRetryAttempts - 1)).2 = .ok ()
    rw [h1, htail]
  · show Event.logErrorGetMethod d ∈
      (retryAux (sendAttempt g i u d j A F S) isTonCenterClientError
        c.sendRetryWait false 0 (c.sendRetryAttempts - 1)).1
    refine h5 _ ?_
    rw [htail]; simp
  · show (retryAux (sendAttempt g i u d j A F S) isTonCenterClientError
        c.sendRetryWait false 0 (c.sendRetryAttempts - 1)).1.countP
        isSubmit = k + 1
    rw [h2, htail]
    simp [List.countP_cons, isSubmit]
  · show (retryAux (sendAttempt g i u d j A F S) isTonCenterClientError
        c.sendRetryWait false 0 (c.sendRetryAttempts - 1)).1.countP
        isRetryWait = k
    rw [h3, htail]
    simp [List.countP_cons, isRetryWait]
  · show (retryAux (sendAttempt g i u d j A F S) isTonCenterClientError
        c.sendRetryWait false 0 (c.sendRetryAttempts - 1)).1.countP
        isInterSleep = 0
    rw [h4, htail]
    simp [List.countP_cons, isInterSleep]

/-- An error that is neither the transient gateway error nor a method
rejection, raised on attempt `k` (after `k` transient failures), escapes
`send_jetton` as-is. -/
lemma send_jetton_unclassified {c : Config} {k : Nat} {e : Err}
    (hk : k < c.sendRetryAttempts)
    (hpre : ∀ m, m < k → g.transferJetton i m = .error .tonCenter)
    (hke : g.transferJetton i k = .error e)
    (he1 : e ≠ .tonCenter) (he2 : e ≠ .getMethod) :
    (send_jetton g c i u d j A F S).2 = .error e := by
  have hpre0 : ∀ m, m < k → g.transferJetton i (0 + m) = .error .tonCenter := by
    intro m hm; simpa using hpre m hm
  obtain ⟨h1, -, -, -, -⟩ :=
    send_retryAux_shift (g := g) (i := i) (u := u) (d := d) (j := j)
      (A := A) (F := F) (S := S) (v := c.sendRetryWait) k 0
      (c.sendRetryAttempts - 1) (by omega) hpre0
  have hop : sendAttempt g i u d j A F S (0 + k) =
      ([.submitTransfer i d j.address A F, .logErrorCannotSend d],
       .error e) := by
    rw [Nat.zero_add]; exact sendAttempt_of_err hke he2
  have htail := retryAux_of_err_nonretry (p := isTonCenterClientError)
    (w := c.sendRetryWait) (r := false)
    (f := c.sendRetryAttempts - 1 - k) hop
    (isTonCenterClientError_eq_false he1)
  show (retryAux (sendAttempt g i u d j A F S) isTonCenterClientError
      c.sendRetryWait false 0 (c.sendRetryAttempts - 1)).2 = .error e
  rw [h1, htail]

/-- Every event of a `send_jetton` run is one of the send-body events for
this destination or retry glue. -/
lemma send_jetton_mem {c : Config} {ev : Event}
    (hev : ev ∈ (send_jetton g c i u d j A F S).1) :
    ev = .submitTransfer i d j.address A F ∨
      (∃ c, ev = .logInfoSent d c) ∨ ev = .interSendSleep S ∨
      ev = .logErrorGetMethod d ∨ ev = .logErrorCannotSend d ∨
      (∃ n, ev = .logAttempt n) ∨ ev = .retryWait c.sendRetryWait := by
  have hev' : ev ∈ (retryAux (sendAttempt g i u d j A F S)
      isTonCenterClientError c.sendRetryWait false 0
      (c.sendRetryAttempts - 1)).1 := hev
  rcases retryAux_mem _ _ _ hev' with ⟨m, hm⟩ | ⟨n, hn⟩ | hw
  · rcases sendAttempt_mem hm with h | h | h | h | h
    · exact .inl h
    · exact .inr (.inl h)
    · exact .inr (.inr (.inl h))
    · exact .inr (.inr (.inr (.inl h)))
    · exact .inr (.inr (.inr (.inr (.inl h))))
  · exact .inr (.inr (.inr (.inr (.inr (.inl ⟨n, hn⟩)))))
  · exact .inr (.inr (.inr (.inr (.inr (.inr hw)))))

/-- `send_jetton` always submits at least once (its first attempt runs
unconditionally). -/
lemma send_jetton_submit_mem (c : Config) :
    Event.submitTransfer i d j.address A F ∈
      (send_jetton g c i u d j A F S).1 := by
  show Event.submitTransfer i d j.address A F ∈
    (retryAux (sendAttempt g i u d j A F S) isTonCenterClientError
      c.sendRetryWait false 0 (c.sendRetryAttempts - 1)).1
  exact retryAux_mem_first (sendAttempt_submit_mem 0)

/-- Over a whole `send_jetton` run, inter-send sleeps and send-success logs
are in bijection. -/
lemma send_jetton_balanced (c : Config) :
    (send_jetton g c i u d j A F S).1.countP isInterSleep =
      (send_jetton g c i u d j A F S).1.countP isSentLog := by
  show (retryAux (sendAttempt g i u d j A F S) isTonCenterClientError
      c.sendRetryWait false 0 (c.sendRetryAttempts - 1)).1.countP
      isInterSleep = _
  exact retryAux_countP_eq isInterSleep isSentLog (by simp [isInterSleep])
    (by simp [isInterSleep]) (by simp [isSentLog]) (by simp [isSentLog])
    (fun m => sendAttempt_balanced m) _ _

/-! ## Facts about the resolvers -/

lemma get_jetton_mem {c : Config} {z : String} {ev : Event}
    (hev : ev ∈ (get_jetton g c z).1) :
    ev = .logInfoJetton ∨ (∃ n, ev = .logAttempt n) ∨
      ev = .retryWait c.retrieveRetryWait := by
  have hev' : ev ∈ (retryAux (getJettonAttempt g z)
      isTonCenterClientError c.retrieveRetryWait true 0
      (c.retrieveRetryAttempts - 1)).1 := hev
  rcases retryAux_mem _ _ _ hev' with ⟨m, hm⟩ | h | h
  · left
    rcases hu : g.jettonUpdate m with e | u
    · simp [getJettonAttempt, hu] at hm
    · simp [getJettonAttempt, hu] at hm; exact hm
  · exact .inr (.inl h)
  · exact .inr (.inr h)

lemma get_wallet_mem {c : Config} {M : List String} {v : String}
    {ev : Event} (hev : ev ∈ (get_wallet g c M v).1) :
    (∃ s, ev = .logInfoState s) ∨ (∃ n, ev = .logAttempt n) ∨
      ev = .retryWait c.retrieveRetryWait := by
  have hev' : ev ∈ (retryAux (getWalletAttempt g M v)
      isTonCenterClientError c.retrieveRetryWait true 0
      (c.retrieveRetryAttempts - 1)).1 := hev
  rcases retryAux_mem _ _ _ hev' with ⟨m, hm⟩ | h | h
  · left
    rcases hu : g.walletGetState m with e | s
    · simp [getWalletAttempt, hu] at hm
    · simp [getWalletAttempt, hu] at hm; exact ⟨s, hm⟩
  · exact .inr (.inl h)
  · exact .inr (.inr h)

/-- A predicate false on every event a resolver can emit counts zero over
the `get_jetton` trace. -/
lemma get_jetton_countP_zero {c : Config} {z : String} (q : Event → Bool)
    (h1 : q .logInfoJetton = false) (h2 : ∀ n, q (.logAttempt n) = false)
    (h3 : q (.retryWait c.retrieveRetryWait) = false) :
    (get_jetton g c z).1.countP q = 0 := by
  refine List.countP_eq_zero.2 ?_
  intro ev hev
  rcases get_jetton_mem hev with h | ⟨n, h⟩ | h <;> simp [h, h1, h2, h3]

/-- A predicate false on every event a resolver can emit counts zero over
the `get_wallet` trace. -/
lemma get_wallet_countP_zero {c : Config} {M : List String} {v : String}
    (q : Event → Bool)
    (h1 : ∀ s, q (.logInfoState s) = false)
    (h2 : ∀ n, q (.logAttempt n) = false)
    (h3 : q (.retryWait c.retrieveRetryWait) = false) :
    (get_wallet g c M v).1.countP q = 0 := by
  refine List.countP_eq_zero.2 ?_
  intro ev hev
  rcases get_wallet_mem hev with ⟨s, h⟩ | ⟨n, h⟩ | h <;> simp [h, h1, h2, h3]

/-- When every `jetton.update()` attempt fails transiently, `get_jetton`
exhausts its retries and — because of `reraise=True` — re-raises the last
`TonCenterClientError` itself. -/
lemma get_jetton_exhaust {c : Config} {z : String}
    (h : ∀ m, g.jettonUpdate m = .error .tonCenter) :
    (get_jetton g c z).2 = .error .tonCenter := by
  have hop : ∀ m, (getJettonAttempt g z m).2 = .error .tonCenter := by
    intro m; simp [getJettonAttempt, h m]
  have := retryAux_snd_const_fail (p := isTonCenterClientError)
    (w := c.retrieveRetryWait) (r := true)
    (e := Err.tonCenter) hop rfl (c.retrieveRetryAttempts - 1) 0
  simpa [get_jetton, retryRun] using this

/-- When every `wallet.get_state()` attempt fails transiently, `get_wallet`
exhausts its retries and re-raises the last `TonCenterClientError`. -/
lemma get_wallet_exhaust {c : Config} {M : List String} {v : String}
    (h : ∀ m, g.walletGetState m = .error .tonCenter) :
    (get_wallet g c M v).2 = .error .tonCenter := by
  have hop : ∀ m, (getWalletAttempt g M v m).2 = .error .tonCenter := by
    intro m; simp [getWalletAttempt, h m]
  have := retryAux_snd_const_fail (p := isTonCenterClientError)
    (w := c.retrieveRetryWait) (r := true)
    (e := Err.tonCenter) hop rfl (c.retrieveRetryAttempts - 1) 0
  simpa [get_wallet, retryRun] using this

/-! ## Facts about the send loop -/

variable {c : Config}

lemma sendLoop_nil {a : Nat} : sendLoop g c u j a [] = ([], .ok ()) := rfl

lemma sendLoop_cons_ok {a : Nat} {d : String} {ds : List String}
    {tr : List Event}
    (h : send_jetton g c a u d j c.jettonSendAmount c.jettonSendFee
      c.jettonSendSleep = (tr, .ok ())) :
    sendLoop g c u j a (d :: ds) =
      (tr ++ (sendLoop g c u j (a + 1) ds).1,
       (sendLoop g c u j (a + 1) ds).2) := by
  simp [sendLoop, h]

lemma sendLoop_cons_err {a : Nat} {d : String} {ds : List String}
    {tr : List Event} {e : Err}
    (h : send_jetton g c a u d j c.jettonSendAmount c.jettonSendFee
      c.jettonSendSleep = (tr, .error e)) :
    sendLoop g c u j a (d :: ds) = (tr, .error e) := by
  simp [sendLoop, h]

/-- Every event of a loop trace belongs to the `send_jetton` run of some
destination position. -/
lemma sendLoop_mem :
    ∀ (ds : List String) (a : Nat) (ev : Event),
      ev ∈ (sendLoop g c u j a ds).1 →
      ∃ m, m < ds.length ∧
        ev ∈ (send_jetton g c (a + m) u (ds.getD m "") j
          c.jettonSendAmount c.jettonSendFee c.jettonSendSleep).1 := by
  intro ds
  induction ds with
  | nil => intro a ev hev; simp [sendLoop_nil] at hev
  | cons d ds ih =>
    intro a ev hev
    rcases hs : send_jetton g c a u d j c.jettonSendAmount
        c.jettonSendFee c.jettonSendSleep with ⟨tr, res⟩
    rcases res with e | u
    · rw [sendLoop_cons_err hs] at hev
      refine ⟨0, by simp, ?_⟩
      simpa [hs] using hev
    · cases u
      rw [sendLoop_cons_ok hs] at hev
      rcases List.mem_append.1 hev with h | h
      · refine ⟨0, by simp, ?_⟩
        simpa [hs] using h
      · obtain ⟨m, hm, hmem⟩ := ih (a + 1) ev h
        refine ⟨m + 1, by simpa using hm, ?_⟩
        have heq : a + 1 + m = a + (m + 1) := by omega
        rw [heq] at hmem
        simpa using hmem

/-- Any submission in a loop trace is the canonical submission of some
destination position of the loop. -/
lemma sendLoop_submit_shape {ds : List String} {a : Nat}
    {x : Nat} {d' jm : String} {am : Nat} {fe : Int}
    (hev : Event.submitTransfer x d' jm am fe ∈ (sendLoop g c u j a ds).1) :
    ∃ m, m < ds.length ∧ x = a + m ∧ d' = ds.getD m "" ∧ jm = j.address ∧
      am = c.jettonSendAmount ∧ fe = c.jettonSendFee := by
  obtain ⟨m, hm, hmem⟩ := sendLoop_mem ds a _ hev
  rcases send_jetton_mem hmem with h | ⟨c, h⟩ | h | h | h | ⟨n, h⟩ | h <;>
    first
      | (refine ⟨m, hm, ?_⟩
         injection h with e1 e2 e3 e4 e5
         exact ⟨e1, e2, e3, e4, e5⟩)
      | simp at h

/-- If the loop completes, every destination position received its own
submission, carrying the run's constant amount and fee. -/
lemma sendLoop_ok_submits :
    ∀ (ds : List String) (a : Nat),
      (sendLoop g c u j a ds).2 = .ok () →
      ∀ m, m < ds.length →
        Event.submitTransfer (a + m) (ds.getD m "") j.address
          c.jettonSendAmount c.jettonSendFee ∈
          (sendLoop g c u j a ds).1 := by
  intro ds
  induction ds with
  | nil => intro a _ m hm; simp at hm
  | cons d ds ih =>
    intro a hok m hm
    rcases hs : send_jetton g c a u d j c.jettonSendAmount
        c.jettonSendFee c.jettonSendSleep with ⟨tr, res⟩
    rcases res with e | u
    · rw [sendLoop_cons_err hs] at hok
      exact absurd hok (by simp)
    · cases u
      rw [sendLoop_cons_ok hs] at hok ⊢
      rcases m with _ | m
      · refine List.mem_append.2 (.inl ?_)
        have := send_jetton_submit_mem (g := g) (i := a) (u := u) (d := d)
          (j := j) (A := c.jettonSendAmount) (F := c.jettonSendFee)
          (S := c.jettonSendSleep) c
        rw [hs] at this
        simpa using this
      · refine List.mem_append.2 (.inr ?_)
        have hm' : m < ds.length := by simpa using hm
        have := ih (a + 1) hok m hm'
        have heq : a + 1 + m = a + (m + 1) := by omega
        rw [heq] at this
        simpa using this

/-- A position occurs among the submitted positions of a trace exactly when
the trace holds a submission event for it. -/
lemma mem_submitIdxs {x : Nat} {tr : List Event} :
    x ∈ submitIdxs tr ↔
      ∃ d2 jm am fe, Event.submitTransfer x d2 jm am fe ∈ tr := by
  constructor
  · intro hx
    obtain ⟨ev, hev, hfx⟩ := List.mem_filterMap.1 hx
    cases ev <;> simp [submitIdxs] at hfx
    case submitTransfer y d2 jm am fe =>
      subst hfx
      exact ⟨d2, jm, am, fe, hev⟩
  · rintro ⟨d2, jm, am, fe, hev⟩
    exact List.mem_filterMap.2 ⟨_, hev, rfl⟩

lemma submitIdxs_append (t1 t2 : List Event) :
    submitIdxs (t1 ++ t2) = submitIdxs t1 ++ submitIdxs t2 := by
  simp [submitIdxs]

/-- Submissions in a loop trace are for positions at or after the loop's
starting position. -/
lemma sendLoop_idx_ge {ds : List String} {a x : Nat}
    (hx : x ∈ submitIdxs (sendLoop g c u j a ds).1) : a ≤ x := by
  obtain ⟨d2, jm, am, fe, hev⟩ := mem_submitIdxs.1 hx
  obtain ⟨m, _, hxm, -⟩ := sendLoop_submit_shape hev
  omega

lemma pairwise_le_const {l : List Nat} {c : Nat} (h : ∀ x ∈ l, x = c) :
    l.Pairwise (· ≤ ·) := by
  induction l with
  | nil => exact List.Pairwise.nil
  | cons y l ih =>
    refine List.Pairwise.cons ?_ (ih fun x hx => h x (List.mem_cons_of_mem y hx))
    intro x hx
    rw [h y (List.mem_cons_self y l), h x (List.mem_cons_of_mem y hx)]

/-- The submissions of a loop trace occur in non-decreasing position
order: destinations are processed strictly in list order. -/
lemma sendLoop_pairwise :
    ∀ (ds : List String) (a : Nat),
      (submitIdxs (sendLoop g c u j a ds).1).Pairwise (· ≤ ·) := by
  intro ds
  induction ds with
  | nil => intro a; simp [sendLoop_nil, submitIdxs]
  | cons d ds ih =>
    intro a
    have hhead : ∀ x, x ∈ submitIdxs (send_jetton g c a u d j
        c.jettonSendAmount c.jettonSendFee c.jettonSendSleep).1 →
        x = a := by
      intro x hx
      obtain ⟨d2, jm, am, fe, hev⟩ := mem_submitIdxs.1 hx
      rcases send_jetton_mem hev with h | ⟨c, h⟩ | h | h | h | ⟨n, h⟩ | h <;>
        simp_all
    rcases hs : send_jetton g c a u d j c.jettonSendAmount
        c.jettonSendFee c.jettonSendSleep with ⟨tr, res⟩
    rcases res with e | u
    · rw [sendLoop_cons_err hs]
      refine pairwise_le_const (c := a) ?_
      intro x hx
      refine hhead x ?_
      rw [hs]
      exact hx
    · cases u
      rw [sendLoop_cons_ok hs]
      show (submitIdxs (tr ++ (sendLoop g c u j (a + 1) ds).1)).Pairwise _
      rw [submitIdxs_append]
      refine List.pairwise_append.2 ⟨?_, ih (a + 1), ?_⟩
      · refine pairwise_le_const (c := a) ?_
        intro x hx
        refine hhead x ?_
        rw [hs]
        exact hx
      · intro x hx y hy
        have hxa : x = a := hhead x (by rw [hs]; exact hx)
        have hya : a + 1 ≤ y := sendLoop_idx_ge hy
        omega

/-- Over a loop trace, inter-send sleeps and send-success logs are in
bijection. -/
lemma sendLoop_balanced :
    ∀ (ds : List String) (a : Nat),
      (sendLoop g c u j a ds).1.countP isInterSleep =
        (sendLoop g c u j a ds).1.countP isSentLog := by
  intro ds
  induction ds with
  | nil => intro a; simp [sendLoop_nil]
  | cons d ds ih =>
    intro a
    have hb := send_jetton_balanced (g := g) (i := a) (u := u) (d := d)
      (j := j) (A := c.jettonSendAmount) (F := c.jettonSendFee)
      (S := c.jettonSendSleep) c
    rcases hs : send_jetton g c a u d j c.jettonSendAmount
        c.jettonSendFee c.jettonSendSleep with ⟨tr, res⟩
    rw [hs] at hb
    rcases res with e | u
    · rw [sendLoop_cons_err hs]
      exact hb
    · cases u
      rw [sendLoop_cons_ok hs]
      simp only [List.countP_append]
      rw [hb, ih (a + 1)]

/-- The loop stops at the first destination whose send fails: the failure
propagates and no later position is ever submitted. -/
lemma sendLoop_stops :
    ∀ (ds : List String) (a i0 : Nat) (e : Err),
      i0 < ds.length →
      (∀ m, m < i0 → (send_jetton g c (a + m) u (ds.getD m "") j
        c.jettonSendAmount c.jettonSendFee c.jettonSendSleep).2 =
        .ok ()) →
      (send_jetton g c (a + i0) u (ds.getD i0 "") j c.jettonSendAmount
        c.jettonSendFee c.jettonSendSleep).2 = .error e →
      (sendLoop g c u j a ds).2 = .error e ∧
      (∀ x, x ∈ submitIdxs (sendLoop g c u j a ds).1 → x ≤ a + i0) := by
  intro ds
  induction ds with
  | nil => intro a i0 e hi _ _; simp at hi
  | cons d ds ih =>
    intro a i0 e hi hok herr
    rcases hs : send_jetton g c a u d j c.jettonSendAmount
        c.jettonSendFee c.jettonSendSleep with ⟨tr, res⟩
    rcases i0 with _ | i0
    · have h0 : (send_jetton g c a u d j c.jettonSendAmount
          c.jettonSendFee c.jettonSendSleep).2 = .error e := by
        simpa using herr
      rw [hs] at h0
      rcases res with e' | u
      · have he' : e' = e := by simpa using h0
        subst he'
        rw [sendLoop_cons_err hs]
        refine ⟨rfl, ?_⟩
        intro x hx
        obtain ⟨d2, jm, am, fe, hev⟩ := mem_submitIdxs.1 hx
        have hev' : Event.submitTransfer x d2 jm am fe ∈
            (send_jetton g c a u d j c.jettonSendAmount
              c.jettonSendFee c.jettonSendSleep).1 := by
          rw [hs]; exact hev
        rcases send_jetton_mem hev' with h | ⟨c, h⟩ | h | h | h | ⟨n, h⟩ | h <;>
          simp_all
      · simp at h0
    · have h0 : (send_jetton g c a u d j c.jettonSendAmount
          c.jettonSendFee c.jettonSendSleep).2 = .ok () := by
        have := hok 0 (Nat.succ_pos i0)
        simpa using this
      rw [hs] at h0
      rcases res with e' | u
      · simp at h0
      · cases u
        rw [sendLoop_cons_ok hs]
        have hok' : ∀ m, m < i0 →
            (send_jetton g c (a + 1 + m) u (ds.getD m "") j
              c.jettonSendAmount c.jettonSendFee
              c.jettonSendSleep).2 = .ok () := by
          intro m hm
          have heq : a + 1 + m = a + (m + 1) := by omega
          rw [heq]
          have := hok (m + 1) (by omega)
          simpa using this
        have herr' : (send_jetton g c (a + 1 + i0) u (ds.getD i0 "") j
            c.jettonSendAmount c.jettonSendFee
            c.jettonSendSleep).2 = .error e := by
          have heq : a + 1 + i0 = a + (i0 + 1) := by omega
          rw [heq]
          simpa using herr
        obtain ⟨ihr, ihb⟩ := ih (a + 1) i0 e (by simpa using hi) hok' herr'
        refine ⟨ihr, ?_⟩
        intro x hx
        rw [submitIdxs_append] at hx
        rcases List.mem_append.1 hx with h | h
        · obtain ⟨d2, jm, am, fe, hev⟩ := mem_submitIdxs.1 h
          have hev' : Event.submitTransfer x d2 jm am fe ∈
              (send_jetton g c a u d j c.jettonSendAmount
                c.jettonSendFee c.jettonSendSleep).1 := by
            rw [hs]; exact hev
          rcases send_jetton_mem hev' with h' | ⟨c, h'⟩ | h' | h' | h' | ⟨n, h'⟩ | h' <;>
            simp_all
        · have := ihb x h
          omega

/-! ## Facts about `main` -/

variable {M D : List String}

lemma no_submit_in_get_jetton {z : String} {x : Nat} {d2 jm : String}
    {am : Nat} {fe : Int}
    (hev : Event.submitTransfer x d2 jm am fe ∈ (get_jetton g c z).1) :
    False := by
  rcases get_jetton_mem hev with h | ⟨n, h⟩ | h <;> simp at h

lemma no_submit_in_get_wallet {v : String} {x : Nat} {d2 jm : String}
    {am : Nat} {fe : Int}
    (hev : Event.submitTransfer x d2 jm am fe ∈
      (get_wallet g c M v).1) : False := by
  rcases get_wallet_mem hev with ⟨s, h⟩ | ⟨n, h⟩ | h <;> simp at h

/-- If the retry run succeeds and every attempt can only succeed with the
value `v`, the run's value is `v`. -/
lemma retryAux_ok_val {v : α} (hop : ∀ m b, (op m).2 = .ok b → b = v) :
    ∀ f attempt b, (retryAux op p w r attempt f).2 = .ok b → b = v := by
  intro f
  induction f with
  | zero =>
    intro attempt b hb
    rcases hop' : op attempt with ⟨tr, res⟩
    rcases res with e | a
    · by_cases hp : p e = true
      · rw [retryAux_of_err_last hop' hp] at hb; simp at hb
      · rw [retryAux_of_err_nonretry hop' (by simpa using hp)] at hb
        simp at hb
    · rw [retryAux_of_ok hop'] at hb
      have hba : b = a := by simpa using hb.symm
      subst hba
      exact hop attempt b (by rw [hop'])
  | succ f ih =>
    intro attempt b hb
    rcases hop' : op attempt with ⟨tr, res⟩
    rcases res with e | a
    · by_cases hp : p e = true
      · rw [retryAux_of_err_step hop' hp] at hb
        exact ih (attempt + 1) b hb
      · rw [retryAux_of_err_nonretry hop' (by simpa using hp)] at hb
        simp at hb
    · rw [retryAux_of_ok hop'] at hb
      have hba : b = a := by simpa using hb.symm
      subst hba
      exact hop attempt b (by rw [hop'])

/-- A successfully resolved jetton carries the configured master address. -/
lemma get_jetton_ok_val {z : String} {j : Jetton}
    (h : (get_jetton g c z).2 = .ok j) : j = ⟨z⟩ := by
  refine retryAux_ok_val ?_ (c.retrieveRetryAttempts - 1) 0 j h
  intro m b hb
  rcases hu : g.jettonUpdate m with e | u <;>
    simp [getJettonAttempt, hu] at hb
  exact hb.symm

lemma main_jetton_err {t1 : List Event} {e : Err}
    (h1 : get_jetton g c c.jettonAddress = (t1, .error e)) :
    main g c M D =
      if isTonCenterClientError e then
        (t1 ++ [.logExceptionResolve], .exitCode 3)
      else (t1, .uncaught e) := by
  simp [main, h1]

lemma main_wallet_err {t1 t2 : List Event} {j : Jetton} {e : Err}
    (h1 : get_jetton g c c.jettonAddress = (t1, .ok j))
    (h2 : get_wallet g c M c.sourceWalletVersion = (t2, .error e)) :
    main g c M D =
      if isTonCenterClientError e then
        (t1 ++ t2 ++ [.logExceptionResolve], .exitCode 3)
      else (t1 ++ t2, .uncaught e) := by
  simp [main, h1, h2]

lemma main_notactive {t1 t2 : List Event} {j : Jetton} {u : Wallet}
    {s : String}
    (h1 : get_jetton g c c.jettonAddress = (t1, .ok j))
    (h2 : get_wallet g c M c.sourceWalletVersion = (t2, .ok (u, s)))
    (hs : s ≠ "active") :
    main g c M D =
      (t1 ++ t2 ++ [.checkState s, .logErrorNotActive], .exitCode 4) := by
  simp [main, h1, h2, WalletState.str, hs]

lemma main_active_ok {t1 t2 t3 : List Event} {j : Jetton} {u : Wallet}
    (h1 : get_jetton g c c.jettonAddress = (t1, .ok j))
    (h2 : get_wallet g c M c.sourceWalletVersion =
      (t2, .ok (u, "active")))
    (h3 : sendLoop g c u j 0 D = (t3, .ok ())) :
    main g c M D =
      (t1 ++ t2 ++ .checkState "active" :: t3, .exitCode 0) := by
  simp [main, h1, h2, h3, WalletState.str]

lemma main_active_err {t1 t2 t3 : List Event} {j : Jetton} {u : Wallet}
    {e : Err}
    (h1 : get_jetton g c c.jettonAddress = (t1, .ok j))
    (h2 : get_wallet g c M c.sourceWalletVersion =
      (t2, .ok (u, "active")))
    (h3 : sendLoop g c u j 0 D = (t3, .error e)) :
    main g c M D =
      (t1 ++ t2 ++ .checkState "active" :: t3, .uncaught e) := by
  simp [main, h1, h2, h3, WalletState.str]

lemma submitIdxs_eq_nil_of {tr : List Event}
    (h : ∀ x d2 jm am fe, Event.submitTransfer x d2 jm am fe ∈ tr → False) :
    submitIdxs tr = [] := by
  refine List.eq_nil_iff_forall_not_mem.2 ?_
  intro x hx
  obtain ⟨d2, jm, am, fe, hev⟩ := mem_submitIdxs.1 hx
  exact h x d2 jm am fe hev

/-- Every submission of a whole run is the canonical submission of a
destination position of the run: its position is in range, its address is
the list entry at that position, and it carries the configured jetton
master address, amount and fee. -/
lemma main_submit_shape {x : Nat} {d' jm : String} {am : Nat} {fe : Int}
    (hev : Event.submitTransfer x d' jm am fe ∈ (main g c M D).1) :
    x < D.length ∧ d' = D.getD x "" ∧ jm = c.jettonAddress ∧
      am = c.jettonSendAmount ∧ fe = c.jettonSendFee := by
  rcases hj : get_jetton g c c.jettonAddress with ⟨t1, rj⟩
  rcases rj with e | jj
  · rw [main_jetton_err hj] at hev
    by_cases hB : isTonCenterClientError e = true
    · rw [if_pos hB] at hev
      rcases List.mem_append.1 hev with h | h
      · exact (no_submit_in_get_jetton (by rw [hj]; exact h)).elim
      · simp at h
    · rw [if_neg hB] at hev
      exact (no_submit_in_get_jetton (by rw [hj]; exact hev)).elim
  · have hjj : jj = ⟨c.jettonAddress⟩ := get_jetton_ok_val (by rw [hj])
    subst hjj
    rcases hw : get_wallet g c M c.sourceWalletVersion with ⟨t2, rw2⟩
    rcases rw2 with e | ⟨u, s⟩
    · rw [main_wallet_err hj hw] at hev
      by_cases hB : isTonCenterClientError e = true
      · rw [if_pos hB] at hev
        rcases List.mem_append.1 hev with h | h
        · rcases List.mem_append.1 h with h' | h'
          · exact (no_submit_in_get_jetton (by rw [hj]; exact h')).elim
          · exact (no_submit_in_get_wallet (by rw [hw]; exact h')).elim
        · simp at h
      · rw [if_neg hB] at hev
        rcases List.mem_append.1 hev with h | h
        · exact (no_submit_in_get_jetton (by rw [hj]; exact h)).elim
        · exact (no_submit_in_get_wallet (by rw [hw]; exact h)).elim
    · by_cases hs : s = "active"
      · subst hs
        rcases hl : sendLoop g c u ⟨c.jettonAddress⟩ 0 D with ⟨t3, rl⟩
        have hloop : Event.submitTransfer x d' jm am fe ∈ t3 →
            x < D.length ∧ d' = D.getD x "" ∧
              jm = c.jettonAddress ∧ am = c.jettonSendAmount ∧
              fe = c.jettonSendFee := by
          intro h3
          have h3' : Event.submitTransfer x d' jm am fe ∈
              (sendLoop g c u (Jetton.mk c.jettonAddress) 0 D).1 := by
            rw [hl]; exact h3
          obtain ⟨m, hm, hx, hd, hjm, ham, hfe⟩ := sendLoop_submit_shape h3'
          have hx' : x = m := by omega
          subst hx'
          exact ⟨hm, hd, by simpa using hjm, ham, hfe⟩
        have hsplit :
            Event.submitTransfer x d' jm am fe ∈
              t1 ++ t2 ++ Event.checkState "active" :: t3 →
            x < D.length ∧ d' = D.getD x "" ∧
              jm = c.jettonAddress ∧ am = c.jettonSendAmount ∧
              fe = c.jettonSendFee := by
          intro hmem
          rcases List.mem_append.1 hmem with h | h
          · rcases List.mem_append.1 h with h' | h'
            · exact (no_submit_in_get_jetton (by rw [hj]; exact h')).elim
            · exact (no_submit_in_get_wallet (by rw [hw]; exact h')).elim
          · rcases List.mem_cons.1 h with h' | h'
            · simp at h'
            · exact hloop h'
        rcases rl with e | u
        · rw [main_active_err hj hw hl] at hev
          exact hsplit hev
        · cases u
          rw [main_active_ok hj hw hl] at hev
          exact hsplit hev
      · rw [main_notactive hj hw hs] at hev
        rcases List.mem_append.1 hev with h | h
        · rcases List.mem_append.1 h with h' | h'
          · exact (no_submit_in_get_jetton (by rw [hj]; exact h')).elim
          · exact (no_submit_in_get_wallet (by rw [hw]; exact h')).elim
        · simp at h

/-- The submitted positions of a whole run are non-decreasing in trace
order. -/
lemma main_pairwise :
    (submitIdxs (main g c M D).1).Pairwise (· ≤ ·) := by
  rcases hj : get_jetton g c c.jettonAddress with ⟨t1, rj⟩
  have ht1 : submitIdxs t1 = [] := by
    refine submitIdxs_eq_nil_of ?_
    intro x d2 jm am fe hev
    exact no_submit_in_get_jetton (by rw [hj]; exact hev)
  rcases rj with e | jj
  · rw [main_jetton_err hj]
    by_cases hB : isTonCenterClientError e = true
    · rw [if_pos hB]
      show (submitIdxs (t1 ++ [Event.logExceptionResolve])).Pairwise (· ≤ ·)
      rw [submitIdxs_append, ht1, List.nil_append]
      exact List.Pairwise.nil
    · rw [if_neg hB]
      show (submitIdxs t1).Pairwise (· ≤ ·)
      rw [ht1]
      exact List.Pairwise.nil
  · rcases hw : get_wallet g c M c.sourceWalletVersion with ⟨t2, rw2⟩
    have ht2 : submitIdxs t2 = [] := by
      refine submitIdxs_eq_nil_of ?_
      intro x d2 jm am fe hev
      exact no_submit_in_get_wallet (by rw [hw]; exact hev)
    rcases rw2 with e | ⟨u, s⟩
    · rw [main_wallet_err hj hw]
      by_cases hB : isTonCenterClientError e = true
      · rw [if_pos hB]
        show (submitIdxs (t1 ++ t2 ++ [Event.logExceptionResolve])).Pairwise
          (· ≤ ·)
        rw [submitIdxs_append, submitIdxs_append, ht1, ht2, List.nil_append,
          List.nil_append]
        exact List.Pairwise.nil
      · rw [if_neg hB]
        show (submitIdxs (t1 ++ t2)).Pairwise (· ≤ ·)
        rw [submitIdxs_append, ht1, ht2]
        exact List.Pairwise.nil
    · by_cases hs : s = "active"
      · subst hs
        rcases hl : sendLoop g c u jj 0 D with ⟨t3, rl⟩
        have ht3 : (submitIdxs t3).Pairwise (· ≤ ·) := by
          have := sendLoop_pairwise (g := g) (c := c) (u := u)
            (j := jj) D 0
          rw [hl] at this
          exact this
        have hgoal : (submitIdxs (t1 ++ t2 ++ Event.checkState "active" ::
            t3)).Pairwise (· ≤ ·) := by
          rw [submitIdxs_append, submitIdxs_append, ht1, ht2,
            List.nil_append, List.nil_append]
          exact ht3
        rcases rl with e | u
        · rw [main_active_err hj hw hl]
          exact hgoal
        · cases u
          rw [main_active_ok hj hw hl]
          exact hgoal
      · rw [main_notactive hj hw hs]
        show (submitIdxs (t1 ++ t2 ++ [Event.checkState s,
          Event.logErrorNotActive])).Pairwise (· ≤ ·)
        rw [submitIdxs_append, submitIdxs_append, ht1, ht2, List.nil_append,
          List.nil_append]
        exact List.Pairwise.nil

/-- A run that completes with exit code 0 submitted one transfer for every
destination position, duplicates included, with the constant amount and
fee. -/
lemma main_exit0_submits (hres : (main g c M D).2 = .exitCode 0)
    {m : Nat} (hm : m < D.length) :
    Event.submitTransfer m (D.getD m "") c.jettonAddress
      c.jettonSendAmount c.jettonSendFee ∈ (main g c M D).1 := by
  rcases hj : get_jetton g c c.jettonAddress with ⟨t1, rj⟩
  rcases rj with e | jj
  · rw [main_jetton_err hj] at hres ⊢
    by_cases hB : isTonCenterClientError e = true
    · rw [if_pos hB] at hres; simp at hres
    · rw [if_neg hB] at hres; simp at hres
  · have hjj : jj = ⟨c.jettonAddress⟩ := get_jetton_ok_val (by rw [hj])
    subst hjj
    rcases hw : get_wallet g c M c.sourceWalletVersion with ⟨t2, rw2⟩
    rcases rw2 with e | ⟨u, s⟩
    · rw [main_wallet_err hj hw] at hres ⊢
      by_cases hB : isTonCenterClientError e = true
      · rw [if_pos hB] at hres; simp at hres
      · rw [if_neg hB] at hres; simp at hres
    · by_cases hs : s = "active"
      · subst hs
        rcases hl : sendLoop g c u ⟨c.jettonAddress⟩ 0 D with ⟨t3, rl⟩
        rcases rl with e | u
        · rw [main_active_err hj hw hl] at hres
          simp at hres
        · cases u
          rw [main_active_ok hj hw hl]
          have hloopok : (sendLoop g c u (Jetton.mk c.jettonAddress) 0
              D).2 = .ok () := by rw [hl]
          have hsub := sendLoop_ok_submits D 0 hloopok m hm
          rw [hl] at hsub
          simp only [Nat.zero_add] at hsub
          show Event.submitTransfer m (D.getD m "") c.jettonAddress
            c.jettonSendAmount c.jettonSendFee ∈
            t1 ++ t2 ++ Event.checkState "active" :: t3
          refine List.mem_append.2 (.inr ?_)
          exact List.mem_cons_of_mem _ hsub
      · rw [main_notactive hj hw hs] at hres
        simp at hres


/-- Over a whole run, inter-send sleeps and send-success log lines are in
bijection: the rate-limiting delay elapses exactly once after each
successful send (including the last one) and never after a skipped or
aborting send. -/
lemma main_balanced :
    (main g c M D).1.countP isInterSleep =
      (main g c M D).1.countP isSentLog := by
  rcases hj : get_jetton g c c.jettonAddress with ⟨t1, rj⟩
  have ht1a : t1.countP isInterSleep = 0 := by
    have := get_jetton_countP_zero (g := g) (c := c)
      (z := c.jettonAddress) isInterSleep rfl (fun n => rfl) rfl
    rw [hj] at this; exact this
  have ht1b : t1.countP isSentLog = 0 := by
    have := get_jetton_countP_zero (g := g) (c := c)
      (z := c.jettonAddress) isSentLog rfl (fun n => rfl) rfl
    rw [hj] at this; exact this
  rcases rj with e | jj
  · rw [main_jetton_err hj]
    cases hB : isTonCenterClientError e <;>
      simp [List.countP_append, List.countP_cons, ht1a, ht1b, isInterSleep,
        isSentLog]
  · rcases hw : get_wallet g c M c.sourceWalletVersion with ⟨t2, rw2⟩
    have ht2a : t2.countP isInterSleep = 0 := by
      have := get_wallet_countP_zero (g := g) (c := c) (M := M)
        (v := c.sourceWalletVersion) isInterSleep (fun s => rfl)
        (fun n => rfl) rfl
      rw [hw] at this; exact this
    have ht2b : t2.countP isSentLog = 0 := by
      have := get_wallet_countP_zero (g := g) (c := c) (M := M)
        (v := c.sourceWalletVersion) isSentLog (fun s => rfl)
        (fun n => rfl) rfl
      rw [hw] at this; exact this
    rcases rw2 with e | ⟨u, s⟩
    · rw [main_wallet_err hj hw]
      cases hB : isTonCenterClientError e <;>
        simp [List.countP_append, List.countP_cons, ht1a, ht1b, ht2a, ht2b,
          isInterSleep, isSentLog]
    · by_cases hs : s = "active"
      · subst hs
        rcases hl : sendLoop g c u jj 0 D with ⟨t3, rl⟩
        have ht3 : t3.countP isInterSleep = t3.countP isSentLog := by
          have := sendLoop_balanced (g := g) (c := c) (u := u)
            (j := jj) D 0
          rw [hl] at this
          exact this
        rcases rl with e | u
        · rw [main_active_err hj hw hl]
          simp [List.countP_append, List.countP_cons, ht1a, ht1b, ht2a, ht2b,
            ht3, isInterSleep, isSentLog]
        · cases u
          rw [main_active_ok hj hw hl]
          simp [List.countP_append, List.countP_cons, ht1a, ht1b, ht2a, ht2b,
            ht3, isInterSleep, isSentLog]
      · rw [main_notactive hj hw hs]
        simp [List.countP_append, List.countP_cons, ht1a, ht1b, ht2a, ht2b,
          isInterSleep, isSentLog]

/-- A run stopped by the activation precondition performs no submission and
checks the state exactly once. -/
lemma main_notactive_counts {t1 t2 : List Event} {j : Jetton} {u : Wallet}
    {s : String}
    (h1 : get_jetton g c c.jettonAddress = (t1, .ok j))
    (h2 : get_wallet g c M c.sourceWalletVersion = (t2, .ok (u, s)))
    (hs : s ≠ "active") :
    (main g c M D).2 = .exitCode 4 ∧
      countSubmits (main g c M D).1 = 0 ∧
      countChecks (main g c M D).1 = 1 := by
  have ht1s : t1.countP isSubmit = 0 := by
    have := get_jetton_countP_zero (g := g) (c := c)
      (z := c.jettonAddress) isSubmit rfl (fun n => rfl) rfl
    rw [h1] at this; exact this
  have ht2s : t2.countP isSubmit = 0 := by
    have := get_wallet_countP_zero (g := g) (c := c) (M := M)
      (v := c.sourceWalletVersion) isSubmit (fun s => rfl)
      (fun n => rfl) rfl
    rw [h2] at this; exact this
  have ht1c : t1.countP isCheck = 0 := by
    have := get_jetton_countP_zero (g := g) (c := c)
      (z := c.jettonAddress) isCheck rfl (fun n => rfl) rfl
    rw [h1] at this; exact this
  have ht2c : t2.countP isCheck = 0 := by
    have := get_wallet_countP_zero (g := g) (c := c) (M := M)
      (v := c.sourceWalletVersion) isCheck (fun s => rfl)
      (fun n => rfl) rfl
    rw [h2] at this; exact this
  rw [main_notactive h1 h2 hs]
  refine ⟨rfl, ?_, ?_⟩
  · show (t1 ++ t2 ++ [Event.checkState s, Event.logErrorNotActive]).countP
      isSubmit = 0
    simp [List.countP_append, List.countP_cons, ht1s, ht2s, isSubmit]
  · show (t1 ++ t2 ++ [Event.checkState s, Event.logErrorNotActive]).countP
      isCheck = 1
    simp [List.countP_append, List.countP_cons, ht1c, ht2c, isCheck]

/-- Any submission inside one `send_jetton` run is for that run's
destination position. -/
lemma send_jetton_submit_idx {x : Nat} {d2 jm : String} {am : Nat} {fe : Int}
    (hev : Event.submitTransfer x d2 jm am fe ∈
      (send_jetton g c i u d j A F S).1) : x = i := by
  rcases send_jetton_mem hev with h | ⟨c, h⟩ | h | h | h | ⟨n, h⟩ | h <;>
    simp_all

/-! ## The retry wrapper over an effect-free operation -/

/-- Lift an effect-free fallible operation to the trace-carrying form the
retry wrapper consumes. -/
def liftOp (op : Nat → Except Err α) : Nat → List Event × Except Err α :=
  fun m => ([], op m)

/-- With every attempt failing retryably, the wrapper's trace carries
exactly `f` retry waits: one fixed wait between consecutive attempts and
none after the last. -/
lemma retryAux_liftOp_fail_waits {op : Nat → Except Err α} {e : Err}
    (h : ∀ m, op m = .error e) (hp : p e = true) :
    ∀ f attempt,
      (retryAux (liftOp op) p w r attempt f).1.countP isRetryWait =
        f := by
  intro f
  induction f with
  | zero =>
    intro attempt
    have hop : liftOp op attempt = ([], .error e) := by simp [liftOp, h]
    rw [retryAux_of_err_last hop hp]
    simp [List.countP_cons, isRetryWait]
  | succ f ih =>
    intro attempt
    have hop : liftOp op attempt = ([], .error e) := by simp [liftOp, h]
    rw [retryAux_of_err_step hop hp]
    simp only [List.nil_append, List.countP_cons, List.countP_nil]
    simp [isRetryWait, ih (attempt + 1)]

/-! ## Concrete instances used by witnesses and counterexamples -/

/-- A small concrete configuration: jetton "J", amount 10, fee 1, 60-second
inter-send sleep, version "v4r2", three retry attempts with 5-second waits
for both retry policies. -/
def cfg0 : Config :=
  { jettonAddress := "J", jettonSendAmount := 10, jettonSendFee := 1,
    jettonSendSleep := 60, sourceWalletVersion := "v4r2",
    retrieveRetryAttempts := 3, retrieveRetryWait := 5,
    sendRetryAttempts := 3, sendRetryWait := 5 }

/-- A gateway where everything succeeds. -/
def gwOk : Gateway :=
  { jettonUpdate := fun _ => .ok (),
    walletGetState := fun _ => .ok "active",
    mkWallet := fun _ _ => ⟨"SRC"⟩,
    transferJetton := fun _ _ => .ok 200 }

/-- Like `gwOk`, but all transfers to destination position 0 fail with the
transient gateway error. -/
def gwC1 : Gateway :=
  { gwOk with
    transferJetton := fun i _ =>
      if i = 0 then .error .tonCenter else .ok 200 }

/-- Like `gwOk`, but the transfer to destination position 1 raises an
unclassified error. -/
def gwC2 : Gateway :=
  { gwOk with
    transferJetton := fun i _ =>
      if i = 1 then .error (.other 7) else .ok 200 }

/-- Like `gwOk`, but the transfer to destination position 1 raises
`GetMethodError`. -/
def gwC5 : Gateway :=
  { gwOk with
    transferJetton := fun i _ =>
      if i = 1 then .error .getMethod else .ok 200 }

/-- Like `gwOk`, but every `jetton.update()` fails transiently. -/
def gwJfail : Gateway :=
  { gwOk with jettonUpdate := fun _ => .error .tonCenter }

/-- Like `gwOk`, but every `wallet.get_state()` fails transiently. -/
def gwWfail : Gateway :=
  { gwOk with walletGetState := fun _ => .error .tonCenter }

/-- Like `gwOk`, but the wallet state is the string "frozen", which lies
outside the declared `WalletState` variant set. -/
def gwFrozen : Gateway :=
  { gwOk with walletGetState := fun _ => .ok "frozen" }

/-- Like `gwOk`, but the wallet state is "inactive". -/
def gwInactive : Gateway :=
  { gwOk with walletGetState := fun _ => .ok "inactive" }

/-! ## Claims -/

/-- C1, counterexample: with destination position 0 failing transiently on
every send attempt, the run does NOT recover locally — a `RetryError`
escapes to the caller (the claim says no error propagates), and the second
destination is never attempted (the claim says the engine continues with
the remaining destinations). -/
theorem C1_counterexample :
    (main gwC1 cfg0 [] ["A", "B"]).2 =
        .uncaught (.retryExhausted .tonCenter) ∧
      countSubmitsAt 1 (main gwC1 cfg0 [] ["A", "B"]).1 = 0 ∧
      countSubmitsAt 0 (main gwC1 cfg0 [] ["A", "B"]).1 = 3 :=
  ⟨rfl, rfl, rfl⟩

/-- C1, amended: when a destination's transfer fails with the transient
gateway error on every configured send-retry attempt, the failure is
logged, but — since `send_jetton`'s decorator omits `reraise=True` and the
loop in `main` has no handler — tenacity's `RetryError` wrapping the last
`TonCenterClientError` propagates to the caller and aborts the run: the
remaining destinations are never attempted. -/
theorem C1_amended_theorem (g : Gateway) (c : Config)
    (M : List String) (d : String) (rest : List String)
    (t1 t2 : List Event) (j : Jetton) (u : Wallet)
    (h1 : get_jetton g c c.jettonAddress = (t1, .ok j))
    (h2 : get_wallet g c M c.sourceWalletVersion =
      (t2, .ok (u, "active")))
    (h : ∀ m, g.transferJetton 0 m = .error .tonCenter) :
    (main g c M (d :: rest)).2 =
        .uncaught (.retryExhausted .tonCenter) ∧
      Event.logErrorCannotSend d ∈ (main g c M (d :: rest)).1 ∧
      ∀ x, x ∈ submitIdxs (main g c M (d :: rest)).1 → x = 0 := by
  obtain ⟨hres, hlog, -⟩ := send_jetton_exhaust (g := g) (i := 0) (u := u)
    (d := d) (j := j) (A := c.jettonSendAmount) (F := c.jettonSendFee)
    (S := c.jettonSendSleep) (c := c) h
  rcases hsend : send_jetton g c 0 u d j c.jettonSendAmount
      c.jettonSendFee c.jettonSendSleep with ⟨trS, resS⟩
  rw [hsend] at hres hlog
  have hresS : resS = .error (.retryExhausted .tonCenter) := by
    simpa using hres
  subst hresS
  have hloop : sendLoop g c u j 0 (d :: rest) =
      (trS, .error (.retryExhausted .tonCenter)) := sendLoop_cons_err hsend
  have hmain := main_active_err h1 h2 hloop
  have ht1 : submitIdxs t1 = [] := by
    refine submitIdxs_eq_nil_of ?_
    intro x d2 jm am fe hev
    exact no_submit_in_get_jetton (by rw [h1]; exact hev)
  have ht2 : submitIdxs t2 = [] := by
    refine submitIdxs_eq_nil_of ?_
    intro x d2 jm am fe hev
    exact no_submit_in_get_wallet (by rw [h2]; exact hev)
  refine ⟨by rw [hmain], ?_, ?_⟩
  · rw [hmain]
    show Event.logErrorCannotSend d ∈
      t1 ++ t2 ++ Event.checkState "active" :: trS
    refine List.mem_append.2 (.inr ?_)
    exact List.mem_cons_of_mem _ (by simpa using hlog)
  · intro x hx
    rw [hmain] at hx
    have hx' : x ∈ submitIdxs (t1 ++ t2 ++ Event.checkState "active" ::
        trS) := hx
    rw [submitIdxs_append, submitIdxs_append, ht1, ht2, List.nil_append,
      List.nil_append] at hx'
    have hx3 : x ∈ submitIdxs trS := hx'
    obtain ⟨d2, jm, am, fe, hev⟩ := mem_submitIdxs.1 hx3
    have hev' : Event.submitTransfer x d2 jm am fe ∈
        (send_jetton g c 0 u d j c.jettonSendAmount c.jettonSendFee
          c.jettonSendSleep).1 := by
      rw [hsend]
      exact hev
    exact send_jetton_submit_idx hev'

/-- C1, witness for the amended theorem at a concrete input. -/
theorem C1_witness :
    (main gwC1 cfg0 [] ["A", "B"]).2 =
        .uncaught (.retryExhausted .tonCenter) ∧
      Event.logErrorCannotSend "A" ∈ (main gwC1 cfg0 [] ["A", "B"]).1 := by
  have h := C1_amended_theorem gwC1 cfg0 [] "A" ["B"] [.logInfoJetton]
    [.logInfoState "active"] ⟨"J"⟩ ⟨"SRC"⟩ rfl rfl (fun m => rfl)
  exact ⟨h.1, h.2.1⟩

/-- C2: an error that is neither `TonCenterClientError` nor
`GetMethodError`, raised by the send at position `i0` (on attempt `k`
after `k` transient failures), propagates out of the run unchanged and
stops processing immediately: no destination after position `i0` is ever
submitted. -/
theorem C2_theorem (g : Gateway) (c : Config) (M D : List String)
    (t1 t2 : List Event) (j : Jetton) (u : Wallet) (i0 k : Nat) (e : Err)
    (h1 : get_jetton g c c.jettonAddress = (t1, .ok j))
    (h2 : get_wallet g c M c.sourceWalletVersion =
      (t2, .ok (u, "active")))
    (hi : i0 < D.length)
    (hok : ∀ m, m < i0 → (send_jetton g c m u (D.getD m "") j
      c.jettonSendAmount c.jettonSendFee c.jettonSendSleep).2 =
      .ok ())
    (hk : k < c.sendRetryAttempts)
    (hpre : ∀ m, m < k → g.transferJetton i0 m = .error .tonCenter)
    (hke : g.transferJetton i0 k = .error e)
    (he1 : e ≠ .tonCenter) (he2 : e ≠ .getMethod) :
    (main g c M D).2 = .uncaught e ∧
      ∀ x, x ∈ submitIdxs (main g c M D).1 → x ≤ i0 := by
  have hsend : (send_jetton g c i0 u (D.getD i0 "") j
      c.jettonSendAmount c.jettonSendFee c.jettonSendSleep).2 =
      .error e := send_jetton_unclassified hk hpre hke he1 he2
  have hok' : ∀ m, m < i0 → (send_jetton g c (0 + m) u (D.getD m "")
      j c.jettonSendAmount c.jettonSendFee c.jettonSendSleep).2 =
      .ok () := by
    intro m hm
    rw [Nat.zero_add]
    exact hok m hm
  have hsend' : (send_jetton g c (0 + i0) u (D.getD i0 "") j
      c.jettonSendAmount c.jettonSendFee c.jettonSendSleep).2 =
      .error e := by
    rw [Nat.zero_add]
    exact hsend
  obtain ⟨hres, hbound⟩ := sendLoop_stops (g := g) (c := c) (u := u)
    (j := j) D 0 i0 e hi hok' hsend'
  rcases hl : sendLoop g c u j 0 D with ⟨t3, rl⟩
  rw [hl] at hres hbound
  have hrl : rl = .error e := by simpa using hres
  subst hrl
  have hmain := main_active_err h1 h2 hl
  have ht1 : submitIdxs t1 = [] := by
    refine submitIdxs_eq_nil_of ?_
    intro x d2 jm am fe hev
    exact no_submit_in_get_jetton (by rw [h1]; exact hev)
  have ht2 : submitIdxs t2 = [] := by
    refine submitIdxs_eq_nil_of ?_
    intro x d2 jm am fe hev
    exact no_submit_in_get_wallet (by rw [h2]; exact hev)
  refine ⟨by rw [hmain], ?_⟩
  intro x hx
  rw [hmain] at hx
  have hx' : x ∈ submitIdxs (t1 ++ t2 ++ Event.checkState "active" :: t3) :=
    hx
  rw [submitIdxs_append, submitIdxs_append, ht1, ht2, List.nil_append,
    List.nil_append] at hx'
  have hx3 : x ∈ submitIdxs t3 := hx'
  have := hbound x hx3
  omega

/-- C2, witness: destination B (position 1) raises an unclassified error on
its first attempt; the run aborts with it and position 2 is never
submitted. -/
theorem C2_witness :
    (main gwC2 cfg0 [] ["A", "B", "C"]).2 = .uncaught (.other 7) ∧
      countSubmitsAt 2 (main gwC2 cfg0 [] ["A", "B", "C"]).1 = 0 := by
  have h := C2_theorem gwC2 cfg0 [] ["A", "B", "C"] [.logInfoJetton]
    [.logInfoState "active"] ⟨"J"⟩ ⟨"SRC"⟩ 1 0 (.other 7) rfl rfl (by decide)
    (by
      intro m hm
      have hm0 : m = 0 := by omega
      subst hm0
      rfl)
    (by decide)
    (by
      intro m hm
      exact absurd hm (Nat.not_lt_zero m))
    rfl (by decide) (by decide)
  exact ⟨h.1, rfl⟩

/-- C3: when the fetched source wallet state is not active, the run ends
with exit code 4 having submitted zero transfers, and the state check is
performed exactly once (its single event precedes the absent transfers
trivially). -/
theorem C3_theorem (g : Gateway) (c : Config) (M D : List String)
    (t1 t2 : List Event) (j : Jetton) (u : Wallet) (s : String)
    (h1 : get_jetton g c c.jettonAddress = (t1, .ok j))
    (h2 : get_wallet g c M c.sourceWalletVersion = (t2, .ok (u, s)))
    (hs : s ≠ "active") :
    (main g c M D).2 = .exitCode 4 ∧
      countSubmits (main g c M D).1 = 0 ∧
      countChecks (main g c M D).1 = 1 :=
  main_notactive_counts h1 h2 hs

/-- C3, witness: wallet state "inactive" at a concrete input. -/
theorem C3_witness :
    (main gwInactive cfg0 [] ["A"]).2 = .exitCode 4 ∧
      countSubmits (main gwInactive cfg0 [] ["A"]).1 = 0 ∧
      countChecks (main gwInactive cfg0 [] ["A"]).1 = 1 :=
  C3_theorem gwInactive cfg0 [] ["A"] [.logInfoJetton]
    [.logInfoState "inactive"] ⟨"J"⟩ ⟨"SRC"⟩ "inactive" rfl rfl (by decide)

/-- C4: when the jetton-metadata fetch (or the wallet-state fetch) fails
with the transient gateway error on every configured resolution-retry
attempt, the last `TonCenterClientError` is re-raised (`reraise=True`),
`main` catches it and exits with code 3, and no transfer is ever
submitted. -/
theorem C4_theorem {g : Gateway} {c : Config} {M D : List String} :
    ((∀ m, g.jettonUpdate m = .error .tonCenter) →
      (get_jetton g c c.jettonAddress).2 = .error .tonCenter ∧
      (main g c M D).2 = .exitCode 3 ∧
      countSubmits (main g c M D).1 = 0) ∧
    (∀ t1 j, get_jetton g c c.jettonAddress = (t1, .ok j) →
      (∀ m, g.walletGetState m = .error .tonCenter) →
      (get_wallet g c M c.sourceWalletVersion).2 =
        .error .tonCenter ∧
      (main g c M D).2 = .exitCode 3 ∧
      countSubmits (main g c M D).1 = 0) := by
  constructor
  · intro h
    have hval := get_jetton_exhaust (g := g) (c := c)
      (z := c.jettonAddress) h
    rcases hj : get_jetton g c c.jettonAddress with ⟨t1, rj⟩
    rw [hj] at hval
    have hrj : rj = .error .tonCenter := by simpa using hval
    subst hrj
    have ht1s : t1.countP isSubmit = 0 := by
      have := get_jetton_countP_zero (g := g) (c := c)
        (z := c.jettonAddress) isSubmit rfl (fun n => rfl) rfl
      rw [hj] at this; exact this
    have hmain := main_jetton_err (M := M) (D := D) hj
    rw [if_pos (by rfl)] at hmain
    refine ⟨by simp [hj], by rw [hmain], ?_⟩
    rw [hmain]
    show (t1 ++ [Event.logExceptionResolve]).countP isSubmit = 0
    simp [List.countP_append, List.countP_cons, ht1s, isSubmit]
  · intro t1 j hj h
    have hval := get_wallet_exhaust (g := g) (c := c) (M := M)
      (v := c.sourceWalletVersion) h
    rcases hw : get_wallet g c M c.sourceWalletVersion with ⟨t2, rw2⟩
    rw [hw] at hval
    have hrw : rw2 = .error .tonCenter := by simpa using hval
    subst hrw
    have ht1s : t1.countP isSubmit = 0 := by
      have := get_jetton_countP_zero (g := g) (c := c)
        (z := c.jettonAddress) isSubmit rfl (fun n => rfl) rfl
      rw [hj] at this; exact this
    have ht2s : t2.countP isSubmit = 0 := by
      have := get_wallet_countP_zero (g := g) (c := c) (M := M)
        (v := c.sourceWalletVersion) isSubmit (fun s => rfl)
        (fun n => rfl) rfl
      rw [hw] at this; exact this
    have hmain := main_wallet_err (D := D) hj hw
    rw [if_pos (by rfl)] at hmain
    refine ⟨by simp [hw], by rw [hmain], ?_⟩
    rw [hmain]
    show (t1 ++ t2 ++ [Event.logExceptionResolve]).countP isSubmit = 0
    simp [List.countP_append, List.countP_cons, ht1s, ht2s, isSubmit]

/-- C4, witness: jetton resolution exhaustion and wallet resolution
exhaustion, each at a concrete input. -/
theorem C4_witness :
    (main gwJfail cfg0 [] ["A"]).2 = .exitCode 3 ∧
      countSubmits (main gwJfail cfg0 [] ["A"]).1 = 0 ∧
      (main gwWfail cfg0 [] ["A"]).2 = .exitCode 3 ∧
      countSubmits (main gwWfail cfg0 [] ["A"]).1 = 0 := by
  have hA := (C4_theorem (g := gwJfail) (c := cfg0) (M := [])
    (D := ["A"])).1 (fun m => rfl)
  have hB := (C4_theorem (g := gwWfail) (c := cfg0) (M := [])
    (D := ["A"])).2 [.logInfoJetton] ⟨"J"⟩ rfl (fun m => rfl)
  exact ⟨hA.2.1, hA.2.2, hB.2.1, hB.2.2⟩

/-- C5: a send that raises `GetMethodError` (on attempt `k` after `k`
transient failures) is logged and swallowed: `send_jetton` returns
normally, no inter-send sleep occurs in that send, the loop simply
continues with the next destination, and a run whose remaining sends
succeed still exits with code 0. -/
theorem C5_theorem (g : Gateway) (c : Config) (u : Wallet) (j : Jetton)
    (i0 : Nat) (d : String) (rest : List String) (k : Nat)
    (hk : k < c.sendRetryAttempts)
    (hpre : ∀ m, m < k → g.transferJetton i0 m = .error .tonCenter)
    (hke : g.transferJetton i0 k = .error .getMethod) :
    (send_jetton g c i0 u d j c.jettonSendAmount c.jettonSendFee
        c.jettonSendSleep).2 = .ok () ∧
      Event.logErrorGetMethod d ∈ (send_jetton g c i0 u d j
        c.jettonSendAmount c.jettonSendFee c.jettonSendSleep).1 ∧
      (∀ s, Event.interSendSleep s ∉ (send_jetton g c i0 u d j
        c.jettonSendAmount c.jettonSendFee c.jettonSendSleep).1) ∧
      sendLoop g c u j i0 (d :: rest) =
        ((send_jetton g c i0 u d j c.jettonSendAmount
            c.jettonSendFee c.jettonSendSleep).1 ++
          (sendLoop g c u j (i0 + 1) rest).1,
         (sendLoop g c u j (i0 + 1) rest).2) ∧
      (∀ (M : List String) (t1 t2 t3 : List Event) (j2 : Jetton)
          (sw2 : Wallet),
        get_jetton g c c.jettonAddress = (t1, .ok j2) →
        get_wallet g c M c.sourceWalletVersion =
          (t2, .ok (sw2, "active")) →
        sendLoop g c sw2 j2 0 (d :: rest) = (t3, .ok ()) →
        (main g c M (d :: rest)).2 = .exitCode 0) := by
  obtain ⟨hres, hlog, -, -, hsleep⟩ :=
    send_jetton_getMethod (g := g) (u := u) (d := d) (j := j)
      (A := c.jettonSendAmount) (F := c.jettonSendFee)
      (S := c.jettonSendSleep) (c := c) hk hpre hke
  refine ⟨hres, hlog, ?_, ?_, ?_⟩
  · intro s hmem
    have := List.countP_eq_zero.1 hsleep _ hmem
    simp [isInterSleep] at this
  · rcases hsend : send_jetton g c i0 u d j c.jettonSendAmount
        c.jettonSendFee c.jettonSendSleep with ⟨trS, resS⟩
    rw [hsend] at hres
    have hresS : resS = .ok () := by simpa using hres
    subst hresS
    rw [sendLoop_cons_ok hsend]
  · intro M t1 t2 t3 j2 sw2 hj hw hl
    rw [main_active_ok hj hw hl]

/-- C5, witness: destination B (position 1) raises `GetMethodError` on its
first attempt; its send returns normally with the error logged and no
sleep, and the whole three-destination run still exits 0. -/
theorem C5_witness :
    (send_jetton gwC5 cfg0 1 ⟨"SRC"⟩ "B" ⟨"J"⟩ cfg0.jettonSendAmount
        cfg0.jettonSendFee cfg0.jettonSendSleep).2 = .ok () ∧
      Event.logErrorGetMethod "B" ∈ (send_jetton gwC5 cfg0 1 ⟨"SRC"⟩ "B"
        ⟨"J"⟩ cfg0.jettonSendAmount cfg0.jettonSendFee
        cfg0.jettonSendSleep).1 ∧
      (main gwC5 cfg0 [] ["A", "B", "C"]).2 = .exitCode 0 := by
  have h := C5_theorem gwC5 cfg0 ⟨"SRC"⟩ ⟨"J"⟩ 1 "B" ["C"] 0
    (by decide)
    (by
      intro m hm
      exact absurd hm (Nat.not_lt_zero m))
    rfl
  refine ⟨h.1, h.2.1, ?_⟩
  exact h.2.2.2.2 [] [.logInfoJetton] [.logInfoState "active"] _ ⟨"J"⟩
    ⟨"SRC"⟩ rfl rfl rfl

/-- C6, counterexample: in the three-destination all-success run the claim
predicts exactly two inter-send delays, but the code sleeps after every
successful send, including the last one, so three delays are observed. -/
theorem C6_counterexample :
    (main gwOk cfg0 [] ["A", "B", "C"]).2 = .exitCode 0 ∧
      countInterSleeps (main gwOk cfg0 [] ["A", "B", "C"]).1 = 3 ∧
      countInterSleeps (main gwOk cfg0 [] ["A", "B", "C"]).1 ≠ 2 :=
  ⟨rfl, rfl, by decide⟩

/-- C6, amended: the inter-send delay elapses exactly once after each
successful (Sent) send — including after the final destination — and never
after a skipped (SkippedError) or aborting send; in particular a
three-destination all-success run observes exactly three inter-send
delays. -/
theorem C6_amended_theorem :
    (∀ (g : Gateway) (c : Config) (M D : List String),
      countInterSleeps (main g c M D).1 =
        countSentLogs (main g c M D).1) ∧
      countInterSleeps (main gwOk cfg0 [] ["A", "B", "C"]).1 = 3 :=
  ⟨fun g c M D => main_balanced, rfl⟩

/-- C7: the retry wrapper re-attempts an operation whose failures are
classified retryable (`TonCenterClientError`), with a fixed wait between
consecutive attempts, up to the configured bound; an error not classified
retryable stops the wrapper immediately and propagates as-is, with no
further attempts and no wait. -/
theorem C7_theorem {α : Type} (op : Nat → Except Err α) (w attempts : Nat)
    (r : Bool) (e : Err) :
    ((∀ m, op m = .error .tonCenter) → 1 ≤ attempts →
      (retryRun (liftOp op) isTonCenterClientError w r attempts).2 =
          .error (if r then .tonCenter else .retryExhausted .tonCenter) ∧
        countRetryWaits
          (retryRun (liftOp op) isTonCenterClientError w r attempts).1 =
          attempts - 1 ∧
        (∀ w', Event.retryWait w' ∈
          (retryRun (liftOp op) isTonCenterClientError w r attempts).1 →
          w' = w)) ∧
    (op 0 = .error e → isTonCenterClientError e = false →
      retryRun (liftOp op) isTonCenterClientError w r attempts =
        ([], .error e)) := by
  constructor
  · intro h _
    have hop : ∀ m, (liftOp op m).2 = .error Err.tonCenter := by
      intro m; simp [liftOp, h]
    refine ⟨?_, ?_, ?_⟩
    · exact retryAux_snd_const_fail (p := isTonCenterClientError) (w := w)
        (r := r) (e := Err.tonCenter) hop rfl (attempts - 1) 0
    · exact retryAux_liftOp_fail_waits (p := isTonCenterClientError)
        (w := w) (r := r) h rfl (attempts - 1) 0
    · intro w' hmem
      rcases retryAux_mem _ _ _ hmem with ⟨m, hm⟩ | ⟨n, hn⟩ | hw
      · simp [liftOp] at hm
      · simp at hn
      · injection hw
  · intro h0 hp
    have hop : liftOp op 0 = ([], .error e) := by simp [liftOp, h0]
    exact retryAux_of_err_nonretry hop hp

/-- C7, witness: a constantly transiently failing operation is retried to
the bound (2 waits for 3 attempts) and ends in a `RetryError`; an operation
failing with an unclassified error on the first attempt propagates it
immediately with an empty trace. -/
theorem C7_witness :
    (retryRun (liftOp fun _ => (.error .tonCenter : Except Err Nat))
        isTonCenterClientError 5 false 3).2 =
        .error (.retryExhausted .tonCenter) ∧
      countRetryWaits (retryRun
        (liftOp fun _ => (.error .tonCenter : Except Err Nat))
        isTonCenterClientError 5 false 3).1 = 2 ∧
      retryRun (liftOp fun _ => (.error (.other 1) : Except Err Nat))
        isTonCenterClientError 5 false 3 = ([], .error (.other 1)) := by
  have h1 := (C7_theorem (fun _ => (.error .tonCenter : Except Err Nat))
    5 3 false (.other 1)).1 (fun m => rfl) (by decide)
  have h2 := (C7_theorem (fun _ => (.error (.other 1) : Except Err Nat))
    5 3 false (.other 1)).2 rfl (by decide)
  exact ⟨h1.1, h1.2.1, h2⟩

/-- C8: destinations are processed strictly in list order (the submitted
positions are non-decreasing in trace order), every submission carries the
run's constant amount, fee and jetton master address and targets the list
entry at its position, and a completed run submits once for every
position — so duplicate addresses receive independent sends. -/
theorem C8_theorem (g : Gateway) (c : Config) (M D : List String) :
    (submitIdxs (main g c M D).1).Pairwise (· ≤ ·) ∧
      (∀ x d' jm am fe,
        Event.submitTransfer x d' jm am fe ∈ (main g c M D).1 →
        x < D.length ∧ d' = D.getD x "" ∧ jm = c.jettonAddress ∧
          am = c.jettonSendAmount ∧ fe = c.jettonSendFee) ∧
      ((main g c M D).2 = .exitCode 0 →
        ∀ m, m < D.length →
          Event.submitTransfer m (D.getD m "") c.jettonAddress
            c.jettonSendAmount c.jettonSendFee ∈
            (main g c M D).1) :=
  ⟨main_pairwise, fun x d' jm am fe hev => main_submit_shape hev,
    fun h0 m hm => main_exit0_submits h0 hm⟩

/-- C8, witness: a duplicated destination list; each occurrence of "A"
receives its own submission with the same amount and fee. -/
theorem C8_witness :
    Event.submitTransfer 0 "A" "J" 10 1 ∈
        (main gwOk cfg0 [] ["A", "A"]).1 ∧
      Event.submitTransfer 1 "A" "J" 10 1 ∈
        (main gwOk cfg0 [] ["A", "A"]).1 := by
  have h := (C8_theorem gwOk cfg0 [] ["A", "A"]).2.2 rfl
  exact ⟨h 0 (by decide), h 1 (by decide)⟩

/-- C9: the activation precondition is string equality with "active" (the
value of the `WalletState.active` member): any other state string — whether
or not it belongs to the declared variant set — leads to exit code 4 with
zero submissions, and exactly the state "active" lets the run proceed to
the send loop, whose result alone then determines the run's result. -/
theorem C9_theorem (g : Gateway) (c : Config) (M D : List String)
    (t1 t2 : List Event) (j : Jetton) (u : Wallet) (s : String)
    (h1 : get_jetton g c c.jettonAddress = (t1, .ok j))
    (h2 : get_wallet g c M c.sourceWalletVersion =
      (t2, .ok (u, s))) :
    WalletState.active.str = "active" ∧
      (s ≠ "active" →
        (main g c M D).2 = .exitCode 4 ∧
          countSubmits (main g c M D).1 = 0) ∧
      (s = "active" →
        (main g c M D).2 =
          match (sendLoop g c u j 0 D).2 with
          | .ok _ => .exitCode 0
          | .error e => .uncaught e) := by
  refine ⟨rfl, ?_, ?_⟩
  · intro hs
    obtain ⟨ha, hb, -⟩ := main_notactive_counts (D := D) h1 h2 hs
    exact ⟨ha, hb⟩
  · intro hs
    subst hs
    rcases hl : sendLoop g c u j 0 D with ⟨t3, rl⟩
    rcases rl with e | u
    · rw [main_active_err h1 h2 hl]
    · cases u
      rw [main_active_ok h1 h2 hl]

/-- C9, witness: the state string "frozen", outside the declared variant
set {active, inactive, notinit}, also exits with code 4 and zero
submissions. -/
theorem C9_witness :
    (main gwFrozen cfg0 [] ["A"]).2 = .exitCode 4 ∧
      countSubmits (main gwFrozen cfg0 [] ["A"]).1 = 0 :=
  (C9_theorem gwFrozen cfg0 [] ["A"] [.logInfoJetton]
    [.logInfoState "frozen"] ⟨"J"⟩ ⟨"SRC"⟩ "frozen" rfl rfl).2.1 (by decide)

/-- C10: `GetMethodError` is caught inside the send body, so it never
reaches the retry classifier: the attempt it occurs on counts as a success
(`k` prior transient failures give `k` retry waits and `k + 1` submissions,
the rejection adds neither), and `send_jetton` returns the same value
`.ok ()` as a send whose transfer succeeds, making the two
indistinguishable at the function's return value. -/
theorem C10_theorem (g : Gateway) (c : Config) (u : Wallet) (j : Jetton)
    (i0 : Nat) (d : String) (k : Nat)
    (hk : k < c.sendRetryAttempts)
    (hpre : ∀ m, m < k → g.transferJetton i0 m = .error .tonCenter)
    (hke : g.transferJetton i0 k = .error .getMethod) :
    (send_jetton g c i0 u d j c.jettonSendAmount c.jettonSendFee
        c.jettonSendSleep).2 = .ok () ∧
      countSubmits (send_jetton g c i0 u d j c.jettonSendAmount
        c.jettonSendFee c.jettonSendSleep).1 = k + 1 ∧
      countRetryWaits (send_jetton g c i0 u d j c.jettonSendAmount
        c.jettonSendFee c.jettonSendSleep).1 = k ∧
      (∀ (g2 : Gateway) (n2 : Nat), g2.transferJetton i0 0 = .ok n2 →
        (send_jetton g2 c i0 u d j c.jettonSendAmount
          c.jettonSendFee c.jettonSendSleep).2 = .ok ()) := by
  obtain ⟨hres, -, hsub, hwait, -⟩ :=
    send_jetton_getMethod (g := g) (u := u) (d := d) (j := j)
      (A := c.jettonSendAmount) (F := c.jettonSendFee)
      (S := c.jettonSendSleep) (c := c) hk hpre hke
  refine ⟨hres, hsub, hwait, ?_⟩
  intro g2 n2 hc
  have hop := sendAttempt_of_ok (g := g2) (u := u) (d := d) (j := j)
    (A := c.jettonSendAmount) (F := c.jettonSendFee)
    (S := c.jettonSendSleep) hc
  show (retryAux (sendAttempt g2 i0 u d j c.jettonSendAmount
      c.jettonSendFee c.jettonSendSleep) isTonCenterClientError
      c.sendRetryWait false 0 (c.sendRetryAttempts - 1)).2 = .ok ()
  rw [retryAux_of_ok hop]

/-- C10, witness: destination position 1 raises `GetMethodError` on its
first attempt — one submission, zero retry waits, normal return — and the
all-success gateway's send returns the same value. -/
theorem C10_witness :
    (send_jetton gwC5 cfg0 1 ⟨"SRC"⟩ "B" ⟨"J"⟩ cfg0.jettonSendAmount
        cfg0.jettonSendFee cfg0.jettonSendSleep).2 = .ok () ∧
      countSubmits (send_jetton gwC5 cfg0 1 ⟨"SRC"⟩ "B" ⟨"J"⟩
        cfg0.jettonSendAmount cfg0.jettonSendFee
        cfg0.jettonSendSleep).1 = 1 ∧
      countRetryWaits (send_jetton gwC5 cfg0 1 ⟨"SRC"⟩ "B" ⟨"J"⟩
        cfg0.jettonSendAmount cfg0.jettonSendFee
        cfg0.jettonSendSleep).1 = 0 ∧
      (send_jetton gwOk cfg0 1 ⟨"SRC"⟩ "B" ⟨"J"⟩ cfg0.jettonSendAmount
        cfg0.jettonSendFee cfg0.jettonSendSleep).2 = .ok () := by
  have h := C10_theorem gwC5 cfg0 ⟨"SRC"⟩ ⟨"J"⟩ 1 "B" 0 (by decide)
    (by
      intro m hm
      exact absurd hm (Nat.not_lt_zero m))
    rfl
  exact ⟨h.1, h.2.1, h.2.2.1, h.2.2.2 gwOk 200 rfl⟩

end JettonSender
